import Mathlib

/-!
Shallow embedding of the leafer-x-easy-snap geometry/decision engine.

Numbers are modelled as rationals (ℚ).  JS `Math.round` rounds half toward
positive infinity, i.e. `Math.round x = ⌊x + 1/2⌋`.

Sources embedded here:
* `src/packages/lib/src/snap/utils.ts` (toFixed, isInSnapRange,
  getElementBoundPoints, processAxisDistanceLabels,
  createDistanceLabelWithLineByEdge, calculateEqualSpacing,
  checkSpacingPattern)
* the snap-calc module (createSnapPoints, createSnapLines,
  checkLineCollision, selectBestLineCollision, calculateSnap,
  filterMidPoints)
* the move/offset handlers of `src/packages/lib/src/snap/index.ts`
  (applySnapOffset, executeMove, handleKeyEvent), as explicit state passing.
-/

namespace EasySnap

/-- JS `Math.round`: rounds half toward positive infinity. -/
def jsRound (q : ℚ) : ℤ := ⌊q + 1/2⌋

/-- JS `Math.round` with the result injected back into ℚ. -/
def jsRoundQ (q : ℚ) : ℚ := (jsRound q : ℚ)

/-- utils.ts `toFixed(v, digits = 0)`: `Math.round(v * 10**digits) / 10**digits`. -/
def toFixed (v : ℚ) (digits : ℕ) : ℚ := jsRoundQ (v * 10 ^ digits) / 10 ^ digits

/-- utils.ts `isInSnapRange(distance, snapSize)`: `Math.round(distance) <= snapSize`. -/
def isInSnapRange (distance snapSize : ℚ) : Bool := jsRoundQ distance ≤ snapSize

/-- A coordinate pair in the shared scene space (types.ts `Point`). -/
structure Point where
  x : ℚ
  y : ℚ
deriving DecidableEq, Repr

/-- Axis selector used by the collision detector (`'x' | 'y'`). -/
inductive Axis where
  | x
  | y
deriving DecidableEq, Repr

/-- Coordinate of a point along an axis (JS `point[axis]`). -/
def axisCoord (axis : Axis) (p : Point) : ℚ :=
  match axis with
  | .x => p.x
  | .y => p.y

/-- Position tag of a boundary point (types.ts `SnapPoint['type']`). -/
inductive PosType where
  | tl
  | tr
  | bl
  | br
  | ml
  | mr
  | mt
  | mb
deriving DecidableEq, Repr

/-- A shape as the geometry core sees it: an opaque identity plus the point
list returned by the external boundary query `getLayoutPoints('box', tree)`.
JS reference equality is modelled by the `id` field (distinct shapes carry
distinct ids). -/
structure Element where
  id : ℕ
  layoutPoints : List Point
deriving DecidableEq, Repr

/-- A snap point: a point plus its position tag and the id of the owning
shape (types.ts `SnapPoint`, with the non-owning element reference modelled
as the element id). -/
structure SnapPoint where
  x : ℚ
  y : ℚ
  type : PosType
  element : ℕ
deriving DecidableEq, Repr

/-- Coordinate of a snap point along an axis. -/
def SnapPoint.coord (p : SnapPoint) (axis : Axis) : ℚ :=
  match axis with
  | .x => p.x
  | .y => p.y

/-- Snap line orientation (types.ts `SnapLine['type']`). -/
inductive LineType where
  | vertical
  | horizontal
deriving DecidableEq, Repr

/-- A candidate alignment line (types.ts `SnapLine`). -/
structure SnapLine where
  type : LineType
  value : ℚ
  points : List SnapPoint
deriving DecidableEq, Repr

/-- Result of a line collision test (types.ts `LineCollisionResult`). -/
structure LineCollisionResult where
  line : SnapLine
  collisionPoints : List SnapPoint
  targetPoints : List Point
  offset : ℚ
  distance : ℚ
deriving DecidableEq, Repr

/-- The 8 canonical boundary points of a shape (types.ts `BoundPoints`). -/
structure BoundPoints where
  tl : Point
  tr : Point
  bl : Point
  br : Point
  ml : Point
  mr : Point
  mt : Point
  mb : Point
deriving DecidableEq, Repr

/-- JS `Math.min(...xs)` over a non-empty spread.  The empty case returns 0
here; in JS it returns Infinity, and the engine never queries it on an
empty list (layout point lists of real shapes are non-empty). -/
def listMin : List ℚ → ℚ
  | [] => 0
  | q :: qs => qs.foldl min q

/-- JS `Math.max(...xs)` over a non-empty spread (empty case as in `listMin`). -/
def listMax : List ℚ → ℚ
  | [] => 0
  | q :: qs => qs.foldl max q

/-- utils.ts `getElementBoundPoints(element, tree)`: min/max of the layout
points and the arithmetic means for the edge midpoints.  The current
`utils.ts` applies no rounding to these coordinates. -/
def getElementBoundPoints (element : Element) : BoundPoints :=
  let xs := element.layoutPoints.map (·.x)
  let ys := element.layoutPoints.map (·.y)
  let minX := listMin xs
  let maxX := listMax xs
  let minY := listMin ys
  let maxY := listMax ys
  let centerX := (minX + maxX) / 2
  let centerY := (minY + maxY) / 2
  { tl := ⟨minX, minY⟩
    tr := ⟨maxX, minY⟩
    bl := ⟨minX, maxY⟩
    br := ⟨maxX, maxY⟩
    ml := ⟨minX, centerY⟩
    mr := ⟨maxX, centerY⟩
    mt := ⟨centerX, minY⟩
    mb := ⟨centerX, maxY⟩ }

/-- snap-calc `createSnapPoints(element, getBoundPoints)`: the 8 boundary
points tagged with their position type, in `Object.entries` order. -/
def createSnapPoints (element : Element) (getB : Element → BoundPoints) : List SnapPoint :=
  let b := getB element
  [ ⟨b.tl.x, b.tl.y, .tl, element.id⟩
  , ⟨b.tr.x, b.tr.y, .tr, element.id⟩
  , ⟨b.bl.x, b.bl.y, .bl, element.id⟩
  , ⟨b.br.x, b.br.y, .br, element.id⟩
  , ⟨b.ml.x, b.ml.y, .ml, element.id⟩
  , ⟨b.mr.x, b.mr.y, .mr, element.id⟩
  , ⟨b.mt.x, b.mt.y, .mt, element.id⟩
  , ⟨b.mb.x, b.mb.y, .mb, element.id⟩ ]

/-- One insertion into a JS `Map` key list: keys already present keep their
position, new keys are appended. -/
def insertKey (ks : List ℚ) (k : ℚ) : List ℚ :=
  if k ∈ ks then ks else ks ++ [k]

/-- Key list of a JS `Map` built by inserting the given values in order:
first occurrence order, no duplicates. -/
def keysOf (l : List ℚ) : List ℚ :=
  l.foldl insertKey []

/-- Comparison used to sort a vertical line's points (`(a, b) => a.y - b.y`). -/
def byY (a b : SnapPoint) : Prop := a.y ≤ b.y

/-- Comparison used to sort a horizontal line's points (`(a, b) => a.x - b.x`). -/
def byX (a b : SnapPoint) : Prop := a.x ≤ b.x

instance : DecidableRel byY := fun a b => inferInstanceAs (Decidable (a.y ≤ b.y))

instance : DecidableRel byX := fun a b => inferInstanceAs (Decidable (a.x ≤ b.x))

instance : IsTotal SnapPoint byY := ⟨fun a b => le_total a.y b.y⟩

instance : IsTrans SnapPoint byY := ⟨fun _ _ _ h h' => le_trans h h'⟩

instance : IsTotal SnapPoint byX := ⟨fun a b => le_total a.x b.x⟩

instance : IsTrans SnapPoint byX := ⟨fun _ _ _ h h' => le_trans h h'⟩

/-- snap-calc `createSnapLines(snapPoints)`: group points by exact `x` into
vertical lines and by exact `y` into horizontal lines (JS `Map` grouping:
key order = first insertion, group content order = input order), each
line's points sorted by the orthogonal coordinate (JS stable sort,
modelled by the stable `List.insertionSort`). -/
def createSnapLines (snapPoints : List SnapPoint) : List SnapLine :=
  let vLines := (keysOf (snapPoints.map (·.x))).map fun x =>
    SnapLine.mk .vertical x
      (List.insertionSort byY (snapPoints.filter (fun p => p.x = x)))
  let hLines := (keysOf (snapPoints.map (·.y))).map fun y =>
    SnapLine.mk .horizontal y
      (List.insertionSort byX (snapPoints.filter (fun p => p.y = y)))
  vLines ++ hLines

/-- Deduplicate a line's points by coordinate pair, keeping first
occurrences: this is snap-calc's `Set`-of-`"x,y"`-keys dedup followed by
`find` of the first point with each key. -/
def dedupPoints (ps : List SnapPoint) : List SnapPoint :=
  ps.foldl
    (fun acc p => if acc.any (fun q => q.x = p.x ∧ q.y = p.y) then acc else acc ++ [p])
    []

/-- Loop state of `checkLineCollision`: collected colliding target points,
minimum distance so far (`none` models the initial `Infinity`), and the
offset of the point that achieved the minimum (initially 0). -/
structure CollState where
  cps : List Point
  minD : Option ℚ
  off : ℚ
deriving DecidableEq, Repr

/-- One iteration of the `checkLineCollision` loop over the target points. -/
def collStep (lineValue : ℚ) (axis : Axis) (snapSize : ℚ) (st : CollState) (tp : Point) :
    CollState :=
  let o := axisCoord axis tp - lineValue
  let d := |o|
  if isInSnapRange d snapSize then
    match st.minD with
    | none => ⟨st.cps ++ [tp], some d, o⟩
    | some m =>
      if d < m then ⟨st.cps ++ [tp], some d, o⟩ else ⟨st.cps ++ [tp], some m, st.off⟩
  else st

/-- snap-calc `checkLineCollision(line, targetPoints, axis, snapSize)`:
collect the target points within snap range of the line, tracking the
minimum `|point[axis] - line.value|` and the offset of the first point
achieving it; return `null` (here `none`) when no point collides. -/
def checkLineCollision (line : SnapLine) (targetPoints : List Point) (axis : Axis)
    (snapSize : ℚ) : Option LineCollisionResult :=
  let st := targetPoints.foldl (collStep line.value axis snapSize) ⟨[], none, 0⟩
  match st.minD with
  | none => none
  | some m => some ⟨line, dedupPoints line.points, st.cps, st.off, m⟩

/-- The sort comparator of `selectBestLineCollision` (`(a, b) => a.distance - b.distance`). -/
def distLe (a b : LineCollisionResult) : Prop := a.distance ≤ b.distance

instance : DecidableRel distLe := fun a b =>
  inferInstanceAs (Decidable (a.distance ≤ b.distance))

instance : IsTotal LineCollisionResult distLe := ⟨fun a b => le_total a.distance b.distance⟩

instance : IsTrans LineCollisionResult distLe := ⟨fun _ _ _ h h' => le_trans h h'⟩

/-- snap-calc `selectBestLineCollision(results)`: stable sort ascending by
`distance`, return the first element (`null`/`none` when empty).  JS
`Array.sort` is stable; it is modelled by the stable `List.insertionSort`. -/
def selectBestLineCollision (results : List LineCollisionResult) :
    Option LineCollisionResult :=
  (List.insertionSort distLe results).head?

/-- The 8 live boundary points in `Object.values(targetPoints)` order. -/
def boundPointsList (b : BoundPoints) : List Point :=
  [b.tl, b.tr, b.bl, b.br, b.ml, b.mr, b.mt, b.mb]

/-- Per-axis collision result lists (`{ x: [...], y: [...] }`). -/
structure SnapCalcResult where
  x : List LineCollisionResult
  y : List LineCollisionResult
deriving DecidableEq, Repr

/-- snap-calc `calculateSnap(targetPoints, snapLines, snapSize)`: test the
live boundary points against every vertical line on the X axis and every
horizontal line on the Y axis, keeping the non-null results. -/
def calculateSnap (targetPoints : BoundPoints) (snapLines : List SnapLine)
    (snapSize : ℚ) : SnapCalcResult :=
  let targetSnapPoints := boundPointsList targetPoints
  { x := (snapLines.filter (fun l => l.type = .vertical)).filterMap
      (fun l => checkLineCollision l targetSnapPoints .x snapSize)
    y := (snapLines.filter (fun l => l.type = .horizontal)).filterMap
      (fun l => checkLineCollision l targetSnapPoints .y snapSize) }

/-- snap-calc `filterMidPoints(axis, points)`: for the X axis drop `ml`/`mr`
tagged points, for the Y axis drop `mt`/`mb` tagged points. -/
def filterMidPoints (axis : Axis) (points : List SnapPoint) : List SnapPoint :=
  match axis with
  | .x => points.filter (fun v => ¬(v.type = .ml ∨ v.type = .mr))
  | .y => points.filter (fun v => ¬(v.type = .mt ∨ v.type = .mb))

/-- A gap between consecutive shapes of the sorted group: the source object
`{ start, end, spacing }` of `calculateEqualSpacing` (the `end` index field
is named `stop` here because `end` is reserved). -/
structure GapPos where
  start : ℕ
  stop : ℕ
  spacing : ℚ
deriving DecidableEq, Repr

/-- The absolute clustering tolerance of `calculateEqualSpacing` (`tolerance = 1`). -/
def spacingTolerance : ℚ := 1

/-- An axis-aligned rectangle (the `box` of an `EqualSpacingResult`). -/
structure Rect where
  x : ℚ
  y : ℚ
  width : ℚ
  height : ℚ
deriving DecidableEq, Repr

/-- types.ts `EqualSpacingResult`. -/
structure EqualSpacingResult where
  axis : Axis
  prevElement : Element
  nextElement : Element
  prevSpacing : ℚ
  nextSpacing : ℚ
  equalSpacing : ℚ
  box : Rect
  label : Point
deriving DecidableEq, Repr

/-- Source `getStart` of `findEqualSpacing`: leading edge along the axis. -/
def getStart (isX : Bool) (b : BoundPoints) : ℚ :=
  if isX then b.tl.x else b.tl.y

/-- Source `getEnd` of `findEqualSpacing`: trailing edge along the axis. -/
def getEnd (isX : Bool) (b : BoundPoints) : ℚ :=
  if isX then b.br.x else b.bl.y

/-- The `filterFn` of `findEqualSpacing`: keep a shape iff its extent along
the orthogonal axis overlaps the target's (`!(b2 <= t1 || b1 >= t2)`). -/
def overlapsTarget (isX : Bool) (tBound b : BoundPoints) : Bool :=
  let b1 := if isX then b.tl.y else b.tl.x
  let b2 := if isX then b.bl.y else b.br.x
  let t1 := if isX then tBound.tl.y else tBound.tl.x
  let t2 := if isX then tBound.bl.y else tBound.br.x
  ¬(b2 ≤ t1 ∨ b1 ≥ t2)

/-- Sort order of the group (`(a, b) => getStart(a) - getStart(b)`). -/
def groupLe (isX : Bool) (a b : Element) : Prop :=
  getStart isX (getElementBoundPoints a) ≤ getStart isX (getElementBoundPoints b)

instance (isX : Bool) : DecidableRel (groupLe isX) := fun a b =>
  inferInstanceAs
    (Decidable (getStart isX (getElementBoundPoints a) ≤ getStart isX (getElementBoundPoints b)))

/-- Fallback element for indexed access into the sorted group; every access
performed by the source is in range, so it is never consulted. -/
def defaultElement : Element := ⟨0, []⟩

/-- The consecutive-gap collection loop of `findEqualSpacing`: for each `i`,
`spacing = toFixed(getStart(group[i+1]) - getEnd(group[i]))`, kept when
strictly positive. -/
def gapSpacings (isX : Bool) (group : List Element) : List GapPos :=
  (List.range (group.length - 1)).filterMap fun i =>
    if 0 < toFixed
        (getStart isX (getElementBoundPoints (group.getD (i + 1) defaultElement)) -
          getEnd isX (getElementBoundPoints (group.getD i defaultElement))) 0 then
      some ⟨i, i + 1,
        toFixed
          (getStart isX (getElementBoundPoints (group.getD (i + 1) defaultElement)) -
            getEnd isX (getElementBoundPoints (group.getD i defaultElement))) 0⟩
    else none

/-- First-fit clustering step (`spacingGroups` Map of `findEqualSpacing`):
walk the existing clusters in insertion order; append the gap to the first
cluster whose representative value is within the tolerance, else open a new
cluster keyed by this gap's spacing. -/
def addToGroups : List (ℚ × List GapPos) → GapPos → List (ℚ × List GapPos)
  | [], g => [(g.spacing, [g])]
  | (k, gs) :: rest, g =>
    if |g.spacing - k| ≤ spacingTolerance then (k, gs ++ [g]) :: rest
    else (k, gs) :: addToGroups rest g

/-- The cluster map of `findEqualSpacing`, in insertion order. -/
def spacingGroupsOf (isX : Bool) (group : List Element) : List (ℚ × List GapPos) :=
  (gapSpacings isX group).foldl addToGroups []

/-- utils.ts `checkSpacingPattern(positions, targetIdx)`. -/
def checkSpacingPattern (positions : List GapPos) (targetIdx : ℕ) : Bool :=
  let targetInvolved :=
    positions.filter (fun pos => pos.start = targetIdx ∨ pos.stop = targetIdx)
  if targetInvolved.length = 0 then false
  else
    let leftPositions := positions.filter (fun pos => pos.stop ≤ targetIdx)
    let rightPositions := positions.filter (fun pos => pos.start ≥ targetIdx)
    if 0 < leftPositions.length ∧ 0 < rightPositions.length then true
    else decide (2 ≤ leftPositions.length ∨ 2 ≤ rightPositions.length)

/-- Result construction of the qualifying-gap emission loop of
`findEqualSpacing` (the body of `for (const { start, end } of positions)`). -/
def mkSpacingResult (isX : Bool) (group : List Element) (spacing : ℚ) (pos : GapPos) :
    EqualSpacingResult :=
  let prev := group.getD pos.start defaultElement
  let next := group.getD pos.stop defaultElement
  let prevBound := getElementBoundPoints prev
  let nextBound := getElementBoundPoints next
  let crossStart :=
    max (if isX then prevBound.tl.y else prevBound.tl.x)
      (if isX then nextBound.tl.y else nextBound.tl.x)
  let crossEnd :=
    min (if isX then prevBound.bl.y else prevBound.br.x)
      (if isX then nextBound.bl.y else nextBound.br.x)
  { axis := if isX then .x else .y
    prevElement := prev
    nextElement := next
    prevSpacing := spacing
    nextSpacing := spacing
    equalSpacing := spacing
    box :=
      if isX then ⟨prevBound.br.x, crossStart, spacing, crossEnd - crossStart⟩
      else ⟨crossStart, prevBound.bl.y, crossEnd - crossStart, spacing⟩
    label :=
      if isX then ⟨prevBound.br.x + spacing / 2, crossStart + (crossEnd - crossStart) / 2⟩
      else ⟨crossStart + (crossEnd - crossStart) / 2, prevBound.bl.y + spacing / 2⟩ }

/-- Per-cluster analysis of `findEqualSpacing`: skip clusters with fewer
than 2 gaps, clusters with no gap touching the target's index, and clusters
failing `checkSpacingPattern`; otherwise emit one result per gap. -/
def processCluster (isX : Bool) (group : List Element) (targetIdx : ℕ)
    (cluster : ℚ × List GapPos) : List EqualSpacingResult :=
  if cluster.2.length < 2 then []
  else if ¬cluster.2.any (fun pos => pos.start = targetIdx ∨ pos.stop = targetIdx) then []
  else if ¬checkSpacingPattern cluster.2 targetIdx then []
  else cluster.2.map (mkSpacingResult isX group cluster.1)

/-- The sorted comparison group of `findEqualSpacing`: target plus the
overlap-filtered snap elements, stable-sorted by leading edge. -/
def spacingGroup (isX : Bool) (target : Element) (snapElements : List Element) :
    List Element :=
  let tBound := getElementBoundPoints target
  List.insertionSort (groupLe isX)
    ((snapElements ++ [target]).filter
      (fun el => overlapsTarget isX tBound (getElementBoundPoints el)))

/-- utils.ts `findEqualSpacing(axis)` inside `calculateEqualSpacing`: bail
out when the target dropped out of the filtered group (`targetIdx === -1`),
else analyse every cluster in map order. -/
def findEqualSpacing (isX : Bool) (target : Element) (snapElements : List Element) :
    List EqualSpacingResult :=
  let group := spacingGroup isX target snapElements
  if target ∈ group then
    let targetIdx := group.indexOf target
    (spacingGroupsOf isX group).foldl
      (fun acc c => acc ++ processCluster isX group targetIdx c) []
  else []

/-- utils.ts `calculateEqualSpacing(target, snapElements, tree)`: empty
snap-element list short-circuits; otherwise run the X pass then the Y pass. -/
def calculateEqualSpacing (target : Element) (snapElements : List Element) :
    List EqualSpacingResult :=
  if snapElements.isEmpty then []
  else findEqualSpacing true target snapElements ++ findEqualSpacing false target snapElements

/-- The four edge midpoints of a shape (utils.ts `getElementEdgeMidpoints`). -/
structure EdgeMidpoints where
  left : Point
  right : Point
  top : Point
  bottom : Point
deriving DecidableEq, Repr

/-- utils.ts `getElementEdgeMidpoints(element, tree)`. -/
def getElementEdgeMidpoints (element : Element) : EdgeMidpoints :=
  let b := getElementBoundPoints element
  ⟨b.ml, b.mr, b.mt, b.mb⟩

/-- Side of a distance label (`'left' | 'right' | 'top' | 'bottom'`). -/
inductive Direction where
  | left
  | right
  | top
  | bottom
deriving DecidableEq, Repr

/-- types.ts `DistanceLabel`.  The source's `end` field is named `stop`
(`end` is reserved), and the `text` field — the rounded distance rendered
as a string — is modelled by the rounded number itself. -/
structure DistanceLabel where
  snapPoint : SnapPoint
  position : Point
  start : Point
  stop : Point
  mid : Point
  distance : ℚ
  direction : Direction
  text : ℚ
deriving DecidableEq, Repr

/-- utils.ts `createDistanceLabelWithLineByEdge(snapPoint, direction,
edgeMidpoints, layerScale)`. -/
def createDistanceLabelWithLineByEdge (snapPoint : SnapPoint) (direction : Direction)
    (edgeMidpoints : EdgeMidpoints) (layerScale : ℚ) : DistanceLabel :=
  let start :=
    match direction with
    | .left => edgeMidpoints.left
    | .right => edgeMidpoints.right
    | .top => edgeMidpoints.top
    | .bottom => edgeMidpoints.bottom
  let horizontal := direction = Direction.left ∨ direction = Direction.right
  let stop : Point :=
    if horizontal then ⟨snapPoint.x, start.y⟩ else ⟨start.x, snapPoint.y⟩
  let mid : Point := ⟨(start.x + stop.x) / 2, (start.y + stop.y) / 2⟩
  let offset := 20 / layerScale
  let position : Point :=
    if horizontal then ⟨mid.x, mid.y + offset⟩ else ⟨mid.x + offset, mid.y⟩
  let distance := if horizontal then |start.x - stop.x| else |start.y - stop.y|
  ⟨snapPoint, position, start, stop, mid, toFixed distance 0, direction, toFixed distance 0⟩

/-- Loop state of the nearest-point search of `processAxisDistanceLabels`
(`none` minima model the initial `Infinity`). -/
structure NearestState where
  nearestPrimary : Option SnapPoint
  nearestSecondary : Option SnapPoint
  minPrimaryDist : Option ℚ
  minSecondaryDist : Option ℚ
deriving DecidableEq, Repr

/-- Comparison `d < m` where `m = none` models `Infinity`. -/
def ltInf (d : ℚ) (m : Option ℚ) : Prop :=
  match m with
  | none => True
  | some m' => d < m'

instance (d : ℚ) (m : Option ℚ) : Decidable (ltInf d m) := by
  unfold ltInf
  cases m <;> infer_instance

/-- The first `if` of the nearest-point loop body: possibly take `p` as the
new nearest primary-side point. -/
def primaryUpdate (isX : Bool) (primaryCoord : ℚ) (st : NearestState) (p : SnapPoint) :
    NearestState :=
  if (if isX then p.y else p.x) < primaryCoord ∧
      ltInf |(if isX then p.y else p.x) - primaryCoord| st.minPrimaryDist then
    { st with
      nearestPrimary := some p
      minPrimaryDist := some (|(if isX then p.y else p.x) - primaryCoord|) }
  else st

/-- The second `if` of the nearest-point loop body: possibly take `p` as the
new nearest secondary-side point. -/
def secondaryUpdate (isX : Bool) (secondaryCoord : ℚ) (st : NearestState) (p : SnapPoint) :
    NearestState :=
  if (if isX then p.y else p.x) > secondaryCoord ∧
      ltInf |(if isX then p.y else p.x) - secondaryCoord| st.minSecondaryDist then
    { st with
      nearestSecondary := some p
      minSecondaryDist := some (|(if isX then p.y else p.x) - secondaryCoord|) }
  else st

/-- One iteration of the nearest-point loop of `processAxisDistanceLabels`:
the primary-side `if` followed by the secondary-side `if`. -/
def nearestStep (isX : Bool) (primaryCoord secondaryCoord : ℚ) (st : NearestState)
    (p : SnapPoint) : NearestState :=
  secondaryUpdate isX secondaryCoord (primaryUpdate isX primaryCoord st p) p

/-- Label selection at the end of `processAxisDistanceLabels`: both labels
when their (rounded) distances coincide, else the strictly closer one. -/
def pickLabels (primaryLabel secondaryLabel : Option DistanceLabel) : List DistanceLabel :=
  match primaryLabel, secondaryLabel with
  | some pl, some sl =>
    if pl.distance = sl.distance then [pl, sl]
    else if pl.distance < sl.distance then [pl] else [sl]
  | some pl, none => [pl]
  | none, some sl => [sl]
  | none, none => []

/-- The mid-filtered collision points gathered by `processAxisDistanceLabels`
(`allPoints`). -/
def allLabelPoints (axis : Axis) (collisionResults : List LineCollisionResult) :
    List SnapPoint :=
  collisionResults.foldl (fun acc c => acc ++ filterMidPoints axis c.collisionPoints) []

/-- Source `const isXAxis` flag of `processAxisDistanceLabels`. -/
def axisIsX (axis : Axis) : Bool := axis = Axis.x

/-- The primary-side edge midpoint of `processAxisDistanceLabels`
(top for the X axis, left for the Y axis). -/
def primaryMidOf (mids : EdgeMidpoints) (axis : Axis) : Point :=
  if axisIsX axis then mids.top else mids.left

/-- The secondary-side edge midpoint (bottom for X, right for Y). -/
def secondaryMidOf (mids : EdgeMidpoints) (axis : Axis) : Point :=
  if axisIsX axis then mids.bottom else mids.right

/-- The primary label direction (top for X, left for Y). -/
def primaryDirOf (axis : Axis) : Direction :=
  if axisIsX axis then Direction.top else Direction.left

/-- The secondary label direction (bottom for X, right for Y). -/
def secondaryDirOf (axis : Axis) : Direction :=
  if axisIsX axis then Direction.bottom else Direction.right

/-- The loop's `coord`: the snap point's coordinate orthogonal to the axis. -/
def labelCoord (axis : Axis) (p : SnapPoint) : ℚ :=
  if axisIsX axis then p.y else p.x

/-- The loop's `primaryCoord`. -/
def primaryCoordOf (mids : EdgeMidpoints) (axis : Axis) : ℚ :=
  if axisIsX axis then (primaryMidOf mids axis).y else (primaryMidOf mids axis).x

/-- The loop's `secondaryCoord`. -/
def secondaryCoordOf (mids : EdgeMidpoints) (axis : Axis) : ℚ :=
  if axisIsX axis then (secondaryMidOf mids axis).y else (secondaryMidOf mids axis).x

/-- Final state of the nearest-point loop of `processAxisDistanceLabels`. -/
def nearestStateOf (collisionResults : List LineCollisionResult)
    (mids : EdgeMidpoints) (axis : Axis) : NearestState :=
  (allLabelPoints axis collisionResults).foldl
    (nearestStep (axisIsX axis) (primaryCoordOf mids axis) (secondaryCoordOf mids axis))
    ⟨none, none, none, none⟩

/-- The primary-side candidate label (`primaryLabel`). -/
def primaryLabelOf (collisionResults : List LineCollisionResult) (mids : EdgeMidpoints)
    (axis : Axis) (layerScale : ℚ) : Option DistanceLabel :=
  (nearestStateOf collisionResults mids axis).nearestPrimary.map
    (fun p => createDistanceLabelWithLineByEdge p (primaryDirOf axis) mids layerScale)

/-- The secondary-side candidate label (`secondaryLabel`). -/
def secondaryLabelOf (collisionResults : List LineCollisionResult) (mids : EdgeMidpoints)
    (axis : Axis) (layerScale : ℚ) : Option DistanceLabel :=
  (nearestStateOf collisionResults mids axis).nearestSecondary.map
    (fun p => createDistanceLabelWithLineByEdge p (secondaryDirOf axis) mids layerScale)

/-- utils.ts `processAxisDistanceLabels(collisionResults, targetEdgeMidpoints,
axis, layerScale)`, with its `let` bindings factored into the named helper
definitions above. -/
def processAxisDistanceLabels (collisionResults : List LineCollisionResult)
    (targetEdgeMidpoints : EdgeMidpoints) (axis : Axis) (layerScale : ℚ) :
    List DistanceLabel :=
  if collisionResults.length = 0 then []
  else
    pickLabels (primaryLabelOf collisionResults targetEdgeMidpoints axis layerScale)
      (secondaryLabelOf collisionResults targetEdgeMidpoints axis layerScale)

/-- utils.ts `calculateDistanceLabels(target, snapResults, tree, layerScale)`:
X-axis labels then Y-axis labels. -/
def calculateDistanceLabels (target : Element) (snapResults : SnapCalcResult)
    (layerScale : ℚ) : List DistanceLabel :=
  let targetEdgeMidpoints := getElementEdgeMidpoints target
  processAxisDistanceLabels snapResults.x targetEdgeMidpoints .x layerScale ++
    processAxisDistanceLabels snapResults.y targetEdgeMidpoints .y layerScale

/-- A selected UI object as the offset step sees it: its mutable position
pair (`ui[axis] = ui[axis] - snap.offset`). -/
structure UIObj where
  x : ℚ
  y : ℚ
deriving DecidableEq, Repr

/-- The per-element, per-axis `handle` helper of `applySnapOffset`. -/
def offsetHandle (axis : Axis) (off : ℚ) (u : UIObj) : UIObj :=
  match axis with
  | .x => { u with x := u.x - off }
  | .y => { u with y := u.y - off }

/-- index.ts `applySnapOffset(target, snapResult)`, as a function of the
arrow-key flag and the selected elements' positions (the editor list and,
under multi-select, the simulated target all go through the same
`handle`): when `isKeyEvent` is set, return immediately without touching
any position; otherwise apply the X offset then the Y offset. -/
def applySnapOffset (isKeyEvent : Bool) (selected : List UIObj)
    (snapX snapY : Option LineCollisionResult) : List UIObj :=
  if isKeyEvent then selected
  else
    let afterX :=
      match snapX with
      | some s => selected.map (offsetHandle .x s.offset)
      | none => selected
    match snapY with
    | some s => afterX.map (offsetHandle .y s.offset)
    | none => afterX

/-- Outcome of one move tick: the selected elements' positions after the
offset step, and the collision results handed to the guide-line renderer. -/
structure MoveOutcome where
  selected : List UIObj
  snapResult : SnapCalcResult
deriving DecidableEq, Repr

/-- index.ts `executeMove(event)`, as explicit state passing: compute the
collision results, apply the best per-axis offsets (suppressed by the
arrow-key flag), and hand the full result set to the renderer regardless
of the flag. -/
def executeMove (isKeyEvent : Bool) (selected : List UIObj) (targetPoints : BoundPoints)
    (snapLines : List SnapLine) (snapSize : ℚ) : MoveOutcome :=
  let snapResult := calculateSnap targetPoints snapLines snapSize
  { selected :=
      applySnapOffset isKeyEvent selected
        (selectBestLineCollision snapResult.x) (selectBestLineCollision snapResult.y)
    snapResult := snapResult }

/-- Key codes as the key handler distinguishes them; `other` stands for
every non-arrow `e.code` string. -/
inductive KeyCode where
  | arrowDown
  | arrowUp
  | arrowLeft
  | arrowRight
  | other
deriving DecidableEq, Repr

/-- Key event phase (`KeyEvent.DOWN` / `KeyEvent.UP`). -/
inductive KeyPhase where
  | down
  | up
deriving DecidableEq, Repr

/-- index.ts `handleKeyEvent(e)`: on an arrow key the flag becomes
`e.type === KeyEvent.DOWN`; other keys leave it unchanged. -/
def handleKeyEvent (isKeyEvent : Bool) (code : KeyCode) (phase : KeyPhase) : Bool :=
  if code = KeyCode.other then isKeyEvent else phase = KeyPhase.down

/-! Theorems. -/

/-- Folding the collision step over target points that are all out of snap
range leaves the state untouched. -/
theorem foldl_collStep_of_no_collision (v : ℚ) (axis : Axis) (s : ℚ) :
    ∀ (l : List Point) (st : CollState),
      (∀ tp ∈ l, isInSnapRange |axisCoord axis tp - v| s = false) →
      l.foldl (collStep v axis s) st = st := by
  intro l
  induction l with
  | nil => intro st _; rfl
  | cons a l ih =>
    intro st h
    rw [List.foldl_cons]
    have hstep : collStep v axis s st a = st := by
      have ha := h a (by simp)
      simp [collStep, ha]
    rw [hstep]
    exact ih st fun tp htp => h tp (by simp [htp])

/-- Claim C1 counterexample: with the configured tolerance 5, a target point
at distance 5 + 2/5 from the line (epsilon = 2/5 > 0) still passes the
collision range test, because the code rounds the distance first
(`Math.round(distance) <= snapSize`). -/
theorem isInSnapRange_tolerance_plus_epsilon_collides :
    (0 : ℚ) < 2/5 ∧ isInSnapRange (5 + 2/5) 5 = true := by
  refine ⟨by norm_num, ?_⟩
  norm_num [isInSnapRange, jsRoundQ, jsRound]

/-- Claim C1 (amended): collision range testing rounds the distance, so for
an integer tolerance `t` a distance collides iff it is strictly below
`t + 1/2`; in particular a distance exactly equal to the tolerance is a
collision (boundary inclusive), but so is `t + epsilon` for every
`epsilon < 1/2`. -/
theorem isInSnapRange_boundary (d t : ℚ) (n : ℤ) (ht : t = (n : ℚ)) :
    (isInSnapRange d t = true ↔ d < t + 1/2) ∧ isInSnapRange t t = true := by
  subst ht
  constructor
  · unfold isInSnapRange jsRoundQ jsRound
    rw [decide_eq_true_eq, Int.cast_le]
    constructor
    · intro h
      have h2 : d + 1/2 < (⌊d + 1/2⌋ : ℚ) + 1 := Int.lt_floor_add_one _
      have h3 : ((⌊d + 1/2⌋ : ℤ) : ℚ) ≤ (n : ℚ) := by exact_mod_cast h
      linarith
    · intro h
      have h2 : ⌊d + 1/2⌋ < n + 1 := by
        apply Int.floor_lt.mpr
        push_cast
        linarith
      omega
  · unfold isInSnapRange jsRoundQ jsRound
    rw [decide_eq_true_eq]
    have h1 : ⌊(n : ℚ) + 1/2⌋ = n := by
      rw [Int.floor_int_add]
      norm_num
    rw [h1]

/-- Witness for `isInSnapRange_boundary` at distance 3 and tolerance 5. -/
theorem isInSnapRange_boundary_witness :
    (isInSnapRange 3 5 = true ↔ (3 : ℚ) < 5 + 1/2) ∧ isInSnapRange 5 5 = true :=
  isInSnapRange_boundary 3 5 5 (by norm_num)

/-- Claim C2 counterexample: the boundary-point extractor does not round its
coordinates — an element whose layout min-x is 1/3 keeps the raw 1/3 as its
`tl.x`, which is not a fixed-precision value. -/
theorem getElementBoundPoints_not_rounded :
    (getElementBoundPoints ⟨1, [⟨1/3, 1/3⟩]⟩).tl.x = 1/3 ∧
    toFixed ((getElementBoundPoints ⟨1, [⟨1/3, 1/3⟩]⟩).tl.x) 0
      ≠ (getElementBoundPoints ⟨1, [⟨1/3, 1/3⟩]⟩).tl.x := by
  have h : (getElementBoundPoints ⟨1, [⟨1/3, 1/3⟩]⟩).tl.x = 1/3 := by
    simp [getElementBoundPoints, listMin]
  refine ⟨h, ?_⟩
  rw [h]
  norm_num [toFixed, jsRoundQ, jsRound]

/-- Claim C2 (amended): the extractor applies no rounding, but the four edge
midpoints are the exact arithmetic means of the corresponding corner
coordinates, so the center of `tl`/`tr` exactly equals `mt`, and
analogously for the other three edges. -/
theorem getElementBoundPoints_midpoints_exact (e : Element) :
    (getElementBoundPoints e).mt
        = ⟨((getElementBoundPoints e).tl.x + (getElementBoundPoints e).tr.x) / 2,
            ((getElementBoundPoints e).tl.y + (getElementBoundPoints e).tr.y) / 2⟩ ∧
    (getElementBoundPoints e).mb
        = ⟨((getElementBoundPoints e).bl.x + (getElementBoundPoints e).br.x) / 2,
            ((getElementBoundPoints e).bl.y + (getElementBoundPoints e).br.y) / 2⟩ ∧
    (getElementBoundPoints e).ml
        = ⟨((getElementBoundPoints e).tl.x + (getElementBoundPoints e).bl.x) / 2,
            ((getElementBoundPoints e).tl.y + (getElementBoundPoints e).bl.y) / 2⟩ ∧
    (getElementBoundPoints e).mr
        = ⟨((getElementBoundPoints e).tr.x + (getElementBoundPoints e).br.x) / 2,
            ((getElementBoundPoints e).tr.y + (getElementBoundPoints e).br.y) / 2⟩ := by
  simp only [getElementBoundPoints, Point.mk.injEq]
  refine ⟨⟨by ring, by ring⟩, ⟨by ring, by ring⟩, ⟨by ring, by ring⟩, ⟨by ring, by ring⟩⟩

/-- Claim C7: a line with zero target points within tolerance produces no
collision result, and with an empty line index the detector returns empty
result lists for both axes (the embedding is total, so no exception can
occur). -/
theorem checkLineCollision_all_or_nothing (line : SnapLine) (tps : List Point)
    (axis : Axis) (s : ℚ) (b : BoundPoints)
    (h : ∀ tp ∈ tps, isInSnapRange |axisCoord axis tp - line.value| s = false) :
    checkLineCollision line tps axis s = none ∧
    calculateSnap b [] s = ⟨[], []⟩ := by
  constructor
  · unfold checkLineCollision
    rw [foldl_collStep_of_no_collision _ _ _ _ _ h]
  · rfl

/-- Witness for `checkLineCollision_all_or_nothing`: a line at 0, one target
point at distance 100, tolerance 5. -/
theorem checkLineCollision_all_or_nothing_witness :
    checkLineCollision ⟨.vertical, 0, []⟩ [⟨100, 0⟩] .x 5 = none ∧
    calculateSnap
      ⟨⟨0, 0⟩, ⟨0, 0⟩, ⟨0, 0⟩, ⟨0, 0⟩, ⟨0, 0⟩, ⟨0, 0⟩, ⟨0, 0⟩, ⟨0, 0⟩⟩ [] 5
      = ⟨[], []⟩ := by
  apply checkLineCollision_all_or_nothing
  intro tp htp
  simp only [List.mem_singleton] at htp
  subst htp
  norm_num [isInSnapRange, jsRoundQ, jsRound, axisCoord]

/-- Claim C9: while the arrow-key flag is set, the move handler's offset
step leaves every selected element's position unchanged, while the
collision results handed to the guide-line renderer are the same ones an
unsuppressed tick would compute; an arrow key-down sets the flag and the
matching key-up clears it. -/
theorem executeMove_key_event_suppresses_offset (selected : List UIObj)
    (tp : BoundPoints) (lines : List SnapLine) (s : ℚ) :
    (executeMove true selected tp lines s).selected = selected ∧
    (executeMove true selected tp lines s).snapResult = calculateSnap tp lines s ∧
    (executeMove true selected tp lines s).snapResult
      = (executeMove false selected tp lines s).snapResult ∧
    ∀ b : Bool,
      handleKeyEvent b .arrowDown .down = true ∧ handleKeyEvent b .arrowDown .up = false := by
  refine ⟨?_, rfl, rfl, ?_⟩
  · simp [executeMove, applySnapOffset]
  · intro b
    exact ⟨rfl, rfl⟩

/-- Fallback collision result for positional access; never consulted by the
proved statements. -/
def defaultCollision : LineCollisionResult := ⟨⟨.vertical, 0, []⟩, [], [], 0, 0⟩

/-- Modelled from the spec's words (claim C4): `r` is the result with
minimum `distance`, with exact ties broken in favor of the earliest
position in the input list. -/
def IsFirstMinByDistance (l : List LineCollisionResult) (r : LineCollisionResult) : Prop :=
  ∃ i, i < l.length ∧ l.getD i defaultCollision = r ∧
    (∀ x ∈ l, r.distance ≤ x.distance) ∧
    ∀ j, j < i → r.distance < (l.getD j defaultCollision).distance

/-- The head of the stable insertion sort by distance is the earliest
minimum-distance element of the input. -/
theorem insertionSort_head_firstMin :
    ∀ l : List LineCollisionResult, l ≠ [] →
      ∃ r rest, List.insertionSort distLe l = r :: rest ∧ IsFirstMinByDistance l r := by
  intro l
  induction l with
  | nil => intro h; exact absurd rfl h
  | cons a l ih =>
    intro _
    by_cases hl : l = []
    · subst hl
      refine ⟨a, [], rfl, 0, by simp, by simp, ?_, ?_⟩
      · intro x hx
        simp only [List.mem_singleton] at hx
        subst hx
        exact le_refl _
      · intro j hj
        omega
    · obtain ⟨r, rest, hsort, i, hi, hget, hmin, hfirst⟩ := ih hl
      have hstep : List.insertionSort distLe (a :: l)
          = List.orderedInsert distLe a (r :: rest) := by
        rw [List.insertionSort, hsort]
      by_cases har : distLe a r
      · refine ⟨a, r :: rest, ?_, 0, by simp, by simp, ?_, ?_⟩
        · rw [hstep, List.orderedInsert, if_pos har]
        · intro x hx
          rcases List.mem_cons.mp hx with h | h
          · subst h
            exact le_refl _
          · exact le_trans har (hmin x h)
        · intro j hj
          omega
      · refine ⟨r, List.orderedInsert distLe a rest, ?_, i + 1, ?_, ?_, ?_, ?_⟩
        · rw [hstep, List.orderedInsert, if_neg har]
        · simpa using Nat.succ_lt_succ hi
        · simpa using hget
        · intro x hx
          rcases List.mem_cons.mp hx with h | h
          · subst h
            exact le_of_lt (not_le.mp har)
          · exact hmin x h
        · intro j hj
          cases j with
          | zero =>
            simpa using not_le.mp har
          | succ j' =>
            have hj' : j' < i := by omega
            simpa using hfirst j' hj'

/-- Claim C4: the best-match selector returns nothing on an empty list, and
otherwise the single result with minimum distance, exact ties broken in
favor of the result that came earlier in the input order. -/
theorem selectBestLineCollision_spec (results : List LineCollisionResult) :
    (results = [] → selectBestLineCollision results = none) ∧
    ∀ r, selectBestLineCollision results = some r → IsFirstMinByDistance results r := by
  constructor
  · intro h
    subst h
    rfl
  · intro r hr
    by_cases h : results = []
    · subst h
      simp [selectBestLineCollision] at hr
    · obtain ⟨r', rest, hsort, hfm⟩ := insertionSort_head_firstMin results h
      unfold selectBestLineCollision at hr
      rw [hsort] at hr
      simp only [List.head?_cons, Option.some.injEq] at hr
      subst hr
      exact hfm

/-- Witness for `selectBestLineCollision_spec`: the spec's own example of
distances 7 and 3 — the selector returns the distance-3 result. -/
theorem selectBestLineCollision_spec_witness :
    IsFirstMinByDistance
      [⟨⟨.vertical, 0, []⟩, [], [], 7, 7⟩, ⟨⟨.vertical, 1, []⟩, [], [], 3, 3⟩]
      ⟨⟨.vertical, 1, []⟩, [], [], 3, 3⟩ := by
  apply (selectBestLineCollision_spec _).2
  norm_num [selectBestLineCollision, List.insertionSort, List.orderedInsert, distLe]

/-- Invariant of the `checkLineCollision` fold state: when a minimum is
recorded it bounds every collected point's distance from below and is
attained by the point whose offset is recorded. -/
def CollInv (v : ℚ) (axis : Axis) (st : CollState) : Prop :=
  (st.minD = none → st.cps = []) ∧
  ∀ m, st.minD = some m →
    (∀ tp ∈ st.cps, m ≤ |axisCoord axis tp - v|) ∧
    ∃ tp ∈ st.cps, st.off = axisCoord axis tp - v ∧ |st.off| = m

/-- One collision step preserves the fold invariant. -/
theorem collStep_inv (v : ℚ) (axis : Axis) (s : ℚ) (st : CollState) (tp : Point)
    (h : CollInv v axis st) : CollInv v axis (collStep v axis s st tp) := by
  obtain ⟨hnone, hsome⟩ := h
  unfold collStep
  by_cases hin : isInSnapRange |axisCoord axis tp - v| s
  · rw [if_pos hin]
    cases hst : st.minD with
    | none =>
      refine ⟨by simp, ?_⟩
      intro m hm
      simp only [Option.some.injEq] at hm
      subst hm
      have hcps := hnone hst
      constructor
      · intro tp' htp'
        rw [hcps] at htp'
        simp only [List.nil_append, List.mem_singleton] at htp'
        subst htp'
        exact le_refl _
      · exact ⟨tp, by simp [hcps], rfl, rfl⟩
    | some m0 =>
      dsimp only
      by_cases hlt : |axisCoord axis tp - v| < m0
      · rw [if_pos hlt]
        refine ⟨by simp, ?_⟩
        intro m hm
        simp only [Option.some.injEq] at hm
        subst hm
        obtain ⟨hbound, _⟩ := hsome m0 hst
        constructor
        · intro tp' htp'
          rcases List.mem_append.mp htp' with h' | h'
          · exact le_of_lt (lt_of_lt_of_le hlt (hbound tp' h'))
          · simp only [List.mem_singleton] at h'
            subst h'
            exact le_refl _
        · exact ⟨tp, by simp, rfl, rfl⟩
      · rw [if_neg hlt]
        refine ⟨by simp, ?_⟩
        intro m hm
        simp only [Option.some.injEq] at hm
        subst hm
        obtain ⟨hbound, tp0, htp0, hoff, habs⟩ := hsome m0 hst
        constructor
        · intro tp' htp'
          rcases List.mem_append.mp htp' with h' | h'
          · exact hbound tp' h'
          · simp only [List.mem_singleton] at h'
            subst h'
            exact not_lt.mp hlt
        · exact ⟨tp0, List.mem_append_left _ htp0, hoff, habs⟩
  · rw [if_neg hin]
    exact ⟨hnone, hsome⟩

/-- The fold over all target points preserves the invariant. -/
theorem foldl_collStep_inv (v : ℚ) (axis : Axis) (s : ℚ) :
    ∀ (l : List Point) (st : CollState), CollInv v axis st →
      CollInv v axis (l.foldl (collStep v axis s) st) := by
  intro l
  induction l with
  | nil => intro st h; exact h
  | cons a l ih =>
    intro st h
    rw [List.foldl_cons]
    exact ih _ (collStep_inv v axis s st a h)

/-- Claim C3: an emitted collision result has non-negative distance equal to
the minimum `|targetPoint[axis] - line.value|` over its contributing target
points, and its offset is `targetPoint[axis] - line.value` for a point
achieving that minimum, so subtracting the offset from that point's axis
coordinate yields exactly the line's value. -/
theorem checkLineCollision_result_invariant (line : SnapLine) (tps : List Point)
    (axis : Axis) (s : ℚ) (r : LineCollisionResult)
    (h : checkLineCollision line tps axis s = some r) :
    0 ≤ r.distance ∧
    (∀ tp ∈ r.targetPoints, r.distance ≤ |axisCoord axis tp - line.value|) ∧
    ∃ tp ∈ r.targetPoints, r.offset = axisCoord axis tp - line.value ∧
      |r.offset| = r.distance ∧ axisCoord axis tp - r.offset = line.value := by
  have hInv : CollInv line.value axis
      (tps.foldl (collStep line.value axis s) ⟨[], none, 0⟩) := by
    apply foldl_collStep_inv
    exact ⟨fun _ => rfl, fun m hm => by simp at hm⟩
  simp only [checkLineCollision] at h
  cases hm : (tps.foldl (collStep line.value axis s) ⟨[], none, 0⟩).minD with
  | none =>
    rw [hm] at h
    simp at h
  | some m =>
    rw [hm] at h
    simp only [Option.some.injEq] at h
    obtain ⟨hbound, tp0, htp0, hoff, habs⟩ := hInv.2 m hm
    subst h
    refine ⟨?_, ?_, tp0, htp0, hoff, habs, ?_⟩
    · rw [← habs]
      exact abs_nonneg _
    · exact hbound
    · rw [hoff]
      ring

/-- Witness for `checkLineCollision_result_invariant`: a vertical line at 10
and one target point at x = 13 within tolerance 5. -/
theorem checkLineCollision_result_invariant_witness :
    0 ≤ (3 : ℚ) ∧
    (∀ tp ∈ [Point.mk 13 0], (3 : ℚ) ≤ |axisCoord .x tp - 10|) ∧
    ∃ tp ∈ [Point.mk 13 0], (3 : ℚ) = axisCoord .x tp - 10 ∧
      |(3 : ℚ)| = 3 ∧ axisCoord .x tp - 3 = 10 := by
  have h := checkLineCollision_result_invariant ⟨.vertical, 10, []⟩ [⟨13, 0⟩] .x 5
    ⟨⟨.vertical, 10, []⟩, [], [⟨13, 0⟩], 3, 3⟩ ?coll
  case coll =>
    norm_num [checkLineCollision, collStep, axisCoord, isInSnapRange, jsRoundQ, jsRound,
      dedupPoints]
  exact h

/-- Membership in an inserted key list. -/
theorem mem_insertKey (ks : List ℚ) (k x : ℚ) : x ∈ insertKey ks k ↔ x ∈ ks ∨ x = k := by
  unfold insertKey
  by_cases h : k ∈ ks
  · rw [if_pos h]
    constructor
    · exact Or.inl
    · rintro (h' | h')
      · exact h'
      · subst h'
        exact h
  · rw [if_neg h]
    simp

/-- Membership after folding insertions. -/
theorem mem_foldl_insertKey :
    ∀ (l acc : List ℚ) (x : ℚ), x ∈ l.foldl insertKey acc ↔ x ∈ acc ∨ x ∈ l := by
  intro l
  induction l with
  | nil => simp
  | cons a l ih =>
    intro acc x
    rw [List.foldl_cons, ih, mem_insertKey]
    simp only [List.mem_cons]
    tauto

/-- Inserting preserves distinctness of the key list. -/
theorem nodup_insertKey (ks : List ℚ) (k : ℚ) (h : ks.Nodup) : (insertKey ks k).Nodup := by
  unfold insertKey
  by_cases hk : k ∈ ks
  · rw [if_pos hk]
    exact h
  · rw [if_neg hk]
    rw [List.nodup_append]
    refine ⟨h, List.nodup_singleton k, ?_⟩
    intro a ha hb
    simp only [List.mem_singleton] at hb
    subst hb
    exact hk ha

/-- Folding insertions preserves distinctness. -/
theorem nodup_foldl_insertKey :
    ∀ (l acc : List ℚ), acc.Nodup → (l.foldl insertKey acc).Nodup := by
  intro l
  induction l with
  | nil => intro acc h; exact h
  | cons a l ih =>
    intro acc h
    rw [List.foldl_cons]
    exact ih _ (nodup_insertKey acc a h)

/-- A value is a map key iff it occurs in the inserted list. -/
theorem mem_keysOf (l : List ℚ) (x : ℚ) : x ∈ keysOf l ↔ x ∈ l := by
  unfold keysOf
  rw [mem_foldl_insertKey]
  simp

/-- Map keys are distinct. -/
theorem nodup_keysOf (l : List ℚ) : (keysOf l).Nodup :=
  nodup_foldl_insertKey l [] List.nodup_nil

/-- A distinct list containing `x` has exactly one entry equal to `x`. -/
theorem length_filter_eq_one_of_nodup :
    ∀ (ks : List ℚ) (x : ℚ), ks.Nodup → x ∈ ks →
      (ks.filter (fun k => k = x)).length = 1 := by
  intro ks x
  induction ks with
  | nil => intro _ h; simp at h
  | cons a ks ih =>
    intro hnd hmem
    rw [List.nodup_cons] at hnd
    by_cases hax : a = x
    · subst hax
      have hnil : ks.filter (fun k => k = a) = [] := by
        rw [List.filter_eq_nil_iff]
        intro k hk
        simp only [decide_eq_true_eq]
        intro hka
        subst hka
        exact hnd.1 hk
      simp [List.filter_cons, hnil]
    · have hx : x ∈ ks := by
        rcases List.mem_cons.mp hmem with h | h
        · exact absurd h.symm hax
        · exact h
      rw [List.filter_cons]
      rw [if_neg (by simp [hax])]
      exact ih hnd.2 hx

/-- Claim C8: the index builder yields, for every point of the input, exactly
one vertical line at that point's `x` and exactly one horizontal line at
that point's `y` (so a coordinate carried by a single point still yields a
line), and every produced line has a non-empty point list that is a
permutation of the input points sharing its coordinate, sorted ascending by
the orthogonal coordinate. -/
theorem createSnapLines_index_spec (pts : List SnapPoint) :
    (∀ l ∈ createSnapLines pts,
      l.points ≠ [] ∧
      (l.type = .vertical →
        List.Sorted byY l.points ∧
        l.points.Perm (pts.filter (fun p => p.x = l.value)) ∧
        ∃ p ∈ pts, p.x = l.value) ∧
      (l.type = .horizontal →
        List.Sorted byX l.points ∧
        l.points.Perm (pts.filter (fun p => p.y = l.value)) ∧
        ∃ p ∈ pts, p.y = l.value)) ∧
    ∀ p ∈ pts,
      ((createSnapLines pts).filter
          (fun l => l.type = LineType.vertical ∧ l.value = p.x)).length = 1 ∧
      ((createSnapLines pts).filter
          (fun l => l.type = LineType.horizontal ∧ l.value = p.y)).length = 1 := by
  constructor
  · intro l hl
    unfold createSnapLines at hl
    simp only [List.mem_append, List.mem_map] at hl
    rcases hl with ⟨k, hk, hline⟩ | ⟨k, hk, hline⟩
    · subst hline
      rw [mem_keysOf] at hk
      simp only [List.mem_map] at hk
      obtain ⟨p, hp, hpx⟩ := hk
      have hperm : (List.insertionSort byY (pts.filter (fun q => q.x = k))).Perm
          (pts.filter (fun q => q.x = k)) := List.perm_insertionSort _ _
      have hmem : p ∈ pts.filter (fun q => q.x = k) := by
        rw [List.mem_filter]
        exact ⟨hp, by simp [hpx]⟩
      refine ⟨?_, ?_, ?_⟩
      · intro hnil
        dsimp only at hnil
        rw [hnil] at hperm
        rw [hperm.symm.eq_nil] at hmem
        exact absurd hmem (List.not_mem_nil p)
      · intro _
        exact ⟨List.sorted_insertionSort byY _, hperm, p, hp, hpx⟩
      · intro hty
        exact absurd hty (by simp)
    · subst hline
      rw [mem_keysOf] at hk
      simp only [List.mem_map] at hk
      obtain ⟨p, hp, hpy⟩ := hk
      have hperm : (List.insertionSort byX (pts.filter (fun q => q.y = k))).Perm
          (pts.filter (fun q => q.y = k)) := List.perm_insertionSort _ _
      have hmem : p ∈ pts.filter (fun q => q.y = k) := by
        rw [List.mem_filter]
        exact ⟨hp, by simp [hpy]⟩
      refine ⟨?_, ?_, ?_⟩
      · intro hnil
        dsimp only at hnil
        rw [hnil] at hperm
        rw [hperm.symm.eq_nil] at hmem
        exact absurd hmem (List.not_mem_nil p)
      · intro hty
        exact absurd hty (by simp)
      · intro _
        exact ⟨List.sorted_insertionSort byX _, hperm, p, hp, hpy⟩
  · intro p hp
    constructor
    · unfold createSnapLines
      rw [List.filter_append, List.filter_map, List.filter_map]
      have hfalse : (keysOf (pts.map (·.y))).filter
          ((fun l => decide (l.type = LineType.vertical ∧ l.value = p.x)) ∘
            (fun y => SnapLine.mk .horizontal y
              (List.insertionSort byX (pts.filter (fun q => q.y = y))))) = [] := by
        rw [List.filter_eq_nil_iff]
        intro k _
        simp
      have hsame : (keysOf (pts.map (·.x))).filter
          ((fun l => decide (l.type = LineType.vertical ∧ l.value = p.x)) ∘
            (fun x => SnapLine.mk .vertical x
              (List.insertionSort byY (pts.filter (fun q => q.x = x)))))
          = (keysOf (pts.map (·.x))).filter (fun k => k = p.x) := by
        apply List.filter_congr
        intro k _
        simp
      rw [hfalse, hsame]
      simp only [List.map_nil, List.append_nil, List.length_map]
      apply length_filter_eq_one_of_nodup
      · exact nodup_keysOf _
      · rw [mem_keysOf]
        exact List.mem_map.mpr ⟨p, hp, rfl⟩
    · unfold createSnapLines
      rw [List.filter_append, List.filter_map, List.filter_map]
      have hfalse : (keysOf (pts.map (·.x))).filter
          ((fun l => decide (l.type = LineType.horizontal ∧ l.value = p.y)) ∘
            (fun x => SnapLine.mk .vertical x
              (List.insertionSort byY (pts.filter (fun q => q.x = x))))) = [] := by
        rw [List.filter_eq_nil_iff]
        intro k _
        simp
      have hsame : (keysOf (pts.map (·.y))).filter
          ((fun l => decide (l.type = LineType.horizontal ∧ l.value = p.y)) ∘
            (fun y => SnapLine.mk .horizontal y
              (List.insertionSort byX (pts.filter (fun q => q.y = y)))))
          = (keysOf (pts.map (·.y))).filter (fun k => k = p.y) := by
        apply List.filter_congr
        intro k _
        simp
      rw [hfalse, hsame]
      simp only [List.map_nil, List.nil_append, List.length_map]
      apply length_filter_eq_one_of_nodup
      · exact nodup_keysOf _
      · rw [mem_keysOf]
        exact List.mem_map.mpr ⟨p, hp, rfl⟩

/-- Witness for `createSnapLines_index_spec`: a single snap point yields
exactly one vertical and one horizontal line at its coordinates. -/
theorem createSnapLines_index_spec_witness :
    ((createSnapLines [⟨5, 0, .tl, 1⟩]).filter
        (fun l => l.type = LineType.vertical ∧ l.value = (⟨5, 0, .tl, 1⟩ : SnapPoint).x)).length
      = 1 ∧
    ((createSnapLines [⟨5, 0, .tl, 1⟩]).filter
        (fun l => l.type = LineType.horizontal ∧ l.value = (⟨5, 0, .tl, 1⟩ : SnapPoint).y)).length
      = 1 :=
  (createSnapLines_index_spec _).2 _ (by simp)

/-- Membership in the per-cluster accumulation fold of `findEqualSpacing`. -/
theorem mem_foldl_processCluster (isX : Bool) (group : List Element) (tIdx : ℕ) :
    ∀ (l : List (ℚ × List GapPos)) (acc : List EqualSpacingResult) (x : EqualSpacingResult),
      x ∈ l.foldl (fun acc c => acc ++ processCluster isX group tIdx c) acc ↔
        x ∈ acc ∨ ∃ c ∈ l, x ∈ processCluster isX group tIdx c := by
  intro l
  induction l with
  | nil => simp
  | cons c l ih =>
    intro acc x
    rw [List.foldl_cons, ih]
    simp only [List.mem_append, List.mem_cons]
    constructor
    · rintro ((h | h) | ⟨c', hc', hx⟩)
      · exact Or.inl h
      · exact Or.inr ⟨c, Or.inl rfl, h⟩
      · exact Or.inr ⟨c', Or.inr hc', hx⟩
    · rintro (h | ⟨c', hc' | hc', hx⟩)
      · exact Or.inl (Or.inl h)
      · subst hc'
        exact Or.inl (Or.inr hx)
      · exact Or.inr ⟨c', hc', hx⟩

/-- Modelled from the spec's words (claim C5): a reported cluster has at
least 2 gaps, at least one gap touches the moving shape's index position,
and either gaps exist on both sides of that position or a single side
carries at least 2 gaps. -/
def ClusterGate (positions : List GapPos) (t : ℕ) : Prop :=
  2 ≤ positions.length ∧
  (∃ pos ∈ positions, pos.start = t ∨ pos.stop = t) ∧
  ((positions.filter (fun pos => pos.stop ≤ t) ≠ [] ∧
    positions.filter (fun pos => pos.start ≥ t) ≠ []) ∨
   2 ≤ (positions.filter (fun pos => pos.stop ≤ t)).length ∨
   2 ≤ (positions.filter (fun pos => pos.start ≥ t)).length)

/-- The source's `checkSpacingPattern` decides exactly the touch-and-sides
part of the cluster gate. -/
theorem checkSpacingPattern_iff (positions : List GapPos) (t : ℕ) :
    checkSpacingPattern positions t = true ↔
      (∃ pos ∈ positions, pos.start = t ∨ pos.stop = t) ∧
      ((positions.filter (fun pos => pos.stop ≤ t) ≠ [] ∧
        positions.filter (fun pos => pos.start ≥ t) ≠ []) ∨
       2 ≤ (positions.filter (fun pos => pos.stop ≤ t)).length ∨
       2 ≤ (positions.filter (fun pos => pos.start ≥ t)).length) := by
  have htouch : (positions.filter (fun pos => pos.start = t ∨ pos.stop = t)).length ≠ 0 →
      ∃ pos ∈ positions, pos.start = t ∨ pos.stop = t := by
    intro h1
    have h1' : positions.filter (fun pos => pos.start = t ∨ pos.stop = t) ≠ [] := by
      intro hnil
      rw [hnil] at h1
      exact h1 rfl
    obtain ⟨pos, hpos⟩ := List.exists_mem_of_ne_nil _ h1'
    rw [List.mem_filter] at hpos
    exact ⟨pos, hpos.1, by simpa using hpos.2⟩
  simp only [checkSpacingPattern]
  split_ifs with h1 h2
  · simp only [Bool.false_eq_true, false_iff]
    rintro ⟨⟨pos, hpos, ht⟩, _⟩
    have hm : pos ∈ positions.filter (fun pos => pos.start = t ∨ pos.stop = t) := by
      rw [List.mem_filter]
      exact ⟨hpos, by simpa using ht⟩
    rw [List.length_eq_zero] at h1
    rw [h1] at hm
    exact absurd hm (List.not_mem_nil _)
  · constructor
    · intro _
      refine ⟨htouch h1, Or.inl ⟨?_, ?_⟩⟩
      · exact List.length_pos.mp h2.1
      · exact List.length_pos.mp h2.2
    · intro _
      rfl
  · rw [decide_eq_true_eq]
    constructor
    · intro hor
      refine ⟨htouch h1, ?_⟩
      rcases hor with h | h
      · exact Or.inr (Or.inl h)
      · exact Or.inr (Or.inr h)
    · rintro ⟨_, hside⟩
      rcases hside with ⟨hl, hr⟩ | h | h
      · exact absurd ⟨List.length_pos.mpr hl, List.length_pos.mpr hr⟩ h2
      · exact Or.inl h
      · exact Or.inr h

/-- Every result emitted by a cluster passed the full gate. -/
theorem processCluster_gate (isX : Bool) (group : List Element) (tIdx : ℕ)
    (c : ℚ × List GapPos) (r : EqualSpacingResult)
    (h : r ∈ processCluster isX group tIdx c) : ClusterGate c.2 tIdx := by
  unfold processCluster at h
  by_cases h1 : c.2.length < 2
  · rw [if_pos h1] at h
    exact absurd h (List.not_mem_nil r)
  · rw [if_neg h1] at h
    by_cases h2 : (c.2.any fun pos => decide (pos.start = tIdx ∨ pos.stop = tIdx)) = true
    · rw [if_neg (not_not_intro h2)] at h
      by_cases h3 : checkSpacingPattern c.2 tIdx = true
      · rw [if_neg (not_not_intro h3)] at h
        refine ⟨not_lt.mp h1, ?_, ((checkSpacingPattern_iff c.2 tIdx).mp h3).2⟩
        rw [List.any_eq_true] at h2
        obtain ⟨pos, hpos, hf⟩ := h2
        exact ⟨pos, hpos, by simpa using hf⟩
      · rw [if_pos h3] at h
        exact absurd h (List.not_mem_nil r)
    · rw [if_pos h2] at h
      exact absurd h (List.not_mem_nil r)

/-- Results of one `findEqualSpacing` pass come from a gated cluster. -/
theorem findEqualSpacing_mem_gate (isX : Bool) (target : Element)
    (snapElements : List Element) (r : EqualSpacingResult)
    (h : r ∈ findEqualSpacing isX target snapElements) :
    ∃ c, c ∈ spacingGroupsOf isX (spacingGroup isX target snapElements) ∧
      r ∈ processCluster isX (spacingGroup isX target snapElements)
          ((spacingGroup isX target snapElements).indexOf target) c ∧
      ClusterGate c.2 ((spacingGroup isX target snapElements).indexOf target) := by
  simp only [findEqualSpacing] at h
  split_ifs at h with hmem
  · rw [mem_foldl_processCluster] at h
    rcases h with h | ⟨c, hc, hr⟩
    · exact absurd h (List.not_mem_nil r)
    · exact ⟨c, hc, hr, processCluster_gate _ _ _ _ _ hr⟩
  · exact absurd h (List.not_mem_nil r)

/-- Claim C5: every emitted equal-spacing result comes from a cluster with
at least 2 gaps, at least one of which touches the moving shape's index in
the sorted group, satisfying the sides rule (gaps on both sides, or at
least 2 gaps on the single occupied side); and, concretely, a moving shape
with exactly one neighboring gap on one side only yields no result at all. -/
theorem calculateEqualSpacing_cluster_gate (target : Element)
    (snapElements : List Element) (r : EqualSpacingResult)
    (h : r ∈ calculateEqualSpacing target snapElements) :
    (∃ (isX : Bool) (c : ℚ × List GapPos),
      c ∈ spacingGroupsOf isX (spacingGroup isX target snapElements) ∧
      r ∈ processCluster isX (spacingGroup isX target snapElements)
          ((spacingGroup isX target snapElements).indexOf target) c ∧
      ClusterGate c.2 ((spacingGroup isX target snapElements).indexOf target)) ∧
    calculateEqualSpacing ⟨0, [⟨0, 0⟩, ⟨10, 10⟩]⟩ [⟨1, [⟨20, 0⟩, ⟨30, 10⟩]⟩] = [] := by
  constructor
  · unfold calculateEqualSpacing at h
    split_ifs at h with hempty
    · exact absurd h (List.not_mem_nil r)
    · rcases List.mem_append.mp h with h' | h'
      · obtain ⟨c, hc, hr, hg⟩ := findEqualSpacing_mem_gate true target snapElements r h'
        exact ⟨true, c, hc, hr, hg⟩
      · obtain ⟨c, hc, hr, hg⟩ := findEqualSpacing_mem_gate false target snapElements r h'
        exact ⟨false, c, hc, hr, hg⟩
  · norm_num [calculateEqualSpacing, findEqualSpacing, spacingGroup, spacingGroupsOf,
      gapSpacings, addToGroups, processCluster, checkSpacingPattern, overlapsTarget, groupLe,
      getStart, getEnd, getElementBoundPoints, listMin, listMax, toFixed, jsRoundQ, jsRound,
      List.insertionSort, List.orderedInsert, defaultElement, spacingTolerance, List.indexOf,
      List.findIdx, List.findIdx.go, List.range, List.range.loop,
      List.filterMap_cons, List.getD, min_def, max_def]

/-- Witness for `calculateEqualSpacing_cluster_gate`: three 10-wide shapes in
a row with two equal 10-unit gaps, the moving shape first. -/
theorem calculateEqualSpacing_cluster_gate_witness :
    (∃ (isX : Bool) (c : ℚ × List GapPos),
      c ∈ spacingGroupsOf isX
            (spacingGroup isX ⟨0, [⟨0, 0⟩, ⟨10, 10⟩]⟩
              [⟨1, [⟨20, 0⟩, ⟨30, 10⟩]⟩, ⟨2, [⟨40, 0⟩, ⟨50, 10⟩]⟩]) ∧
      (⟨.x, ⟨0, [⟨0, 0⟩, ⟨10, 10⟩]⟩, ⟨1, [⟨20, 0⟩, ⟨30, 10⟩]⟩, 10, 10, 10,
          ⟨10, 0, 10, 10⟩, ⟨15, 5⟩⟩ : EqualSpacingResult)
        ∈ processCluster isX
            (spacingGroup isX ⟨0, [⟨0, 0⟩, ⟨10, 10⟩]⟩
              [⟨1, [⟨20, 0⟩, ⟨30, 10⟩]⟩, ⟨2, [⟨40, 0⟩, ⟨50, 10⟩]⟩])
            ((spacingGroup isX ⟨0, [⟨0, 0⟩, ⟨10, 10⟩]⟩
                [⟨1, [⟨20, 0⟩, ⟨30, 10⟩]⟩, ⟨2, [⟨40, 0⟩, ⟨50, 10⟩]⟩]).indexOf
              ⟨0, [⟨0, 0⟩, ⟨10, 10⟩]⟩) c ∧
      ClusterGate c.2
        ((spacingGroup isX ⟨0, [⟨0, 0⟩, ⟨10, 10⟩]⟩
            [⟨1, [⟨20, 0⟩, ⟨30, 10⟩]⟩, ⟨2, [⟨40, 0⟩, ⟨50, 10⟩]⟩]).indexOf
          ⟨0, [⟨0, 0⟩, ⟨10, 10⟩]⟩)) ∧
    calculateEqualSpacing ⟨0, [⟨0, 0⟩, ⟨10, 10⟩]⟩ [⟨1, [⟨20, 0⟩, ⟨30, 10⟩]⟩] = [] :=
  calculateEqualSpacing_cluster_gate ⟨0, [⟨0, 0⟩, ⟨10, 10⟩]⟩
    [⟨1, [⟨20, 0⟩, ⟨30, 10⟩]⟩, ⟨2, [⟨40, 0⟩, ⟨50, 10⟩]⟩]
    ⟨.x, ⟨0, [⟨0, 0⟩, ⟨10, 10⟩]⟩, ⟨1, [⟨20, 0⟩, ⟨30, 10⟩]⟩, 10, 10, 10,
      ⟨10, 0, 10, 10⟩, ⟨15, 5⟩⟩
    (by norm_num [calculateEqualSpacing, findEqualSpacing, spacingGroup, spacingGroupsOf,
      gapSpacings, addToGroups, processCluster, mkSpacingResult, checkSpacingPattern,
      overlapsTarget, groupLe, getStart, getEnd, getElementBoundPoints, listMin, listMax,
      toFixed, jsRoundQ, jsRound, List.insertionSort, List.orderedInsert, defaultElement,
      spacingTolerance, List.indexOf, List.findIdx, List.findIdx.go, List.range,
      List.range.loop, List.filterMap_cons, List.getD, min_def, max_def])

/-- Invariant of the first-fit cluster map: every cluster is non-empty, its
representative key is the spacing of its first (opening) gap, and every
member gap came from the given gap list with spacing within the clustering
tolerance of the key. -/
def ClusterInvP (gaps : List GapPos) (groups : List (ℚ × List GapPos)) : Prop :=
  ∀ c ∈ groups, (∃ g0, c.2.head? = some g0 ∧ g0.spacing = c.1) ∧
    ∀ g ∈ c.2, g ∈ gaps ∧ |g.spacing - c.1| ≤ spacingTolerance

/-- One first-fit insertion preserves the cluster-map invariant. -/
theorem addToGroups_inv (gaps : List GapPos) :
    ∀ (groups : List (ℚ × List GapPos)) (g : GapPos),
      ClusterInvP gaps groups → g ∈ gaps → ClusterInvP gaps (addToGroups groups g) := by
  intro groups
  induction groups with
  | nil =>
    intro g hinv hg c hc
    simp only [addToGroups, List.mem_singleton] at hc
    subst hc
    refine ⟨⟨g, rfl, rfl⟩, ?_⟩
    intro g' hg'
    simp only [List.mem_singleton] at hg'
    subst hg'
    refine ⟨hg, ?_⟩
    simp [spacingTolerance]
  | cons gc groups ih =>
    intro g hinv hg c hc
    obtain ⟨k, gs⟩ := gc
    unfold addToGroups at hc
    split_ifs at hc with htol
    · rcases List.mem_cons.mp hc with hceq | hcmem
      · subst hceq
        obtain ⟨⟨g0, hg0, hg0sp⟩, hmems⟩ := hinv (k, gs) (List.mem_cons_self _ _)
        refine ⟨⟨g0, ?_, hg0sp⟩, ?_⟩
        · cases gs with
          | nil => simp at hg0
          | cons a as =>
            simp only [List.cons_append, List.head?_cons] at hg0 ⊢
            exact hg0
        · intro g' hg'
          rcases List.mem_append.mp hg' with h' | h'
          · exact hmems g' h'
          · simp only [List.mem_singleton] at h'
            subst h'
            exact ⟨hg, htol⟩
      · exact hinv c (List.mem_cons_of_mem _ hcmem)
    · rcases List.mem_cons.mp hc with hceq | hcmem
      · subst hceq
        exact hinv (k, gs) (List.mem_cons_self _ _)
      · have hinv' : ClusterInvP gaps groups := fun c' hc' =>
          hinv c' (List.mem_cons_of_mem _ hc')
        exact ih g hinv' hg c hcmem

/-- Folding first-fit insertions preserves the cluster-map invariant. -/
theorem foldl_addToGroups_inv (gaps : List GapPos) :
    ∀ (l : List GapPos) (acc : List (ℚ × List GapPos)),
      (∀ g ∈ l, g ∈ gaps) → ClusterInvP gaps acc →
      ClusterInvP gaps (l.foldl addToGroups acc) := by
  intro l
  induction l with
  | nil => intro acc _ hinv; exact hinv
  | cons g l ih =>
    intro acc hsub hinv
    rw [List.foldl_cons]
    exact ih _ (fun g' hg' => hsub g' (List.mem_cons_of_mem _ hg'))
      (addToGroups_inv gaps acc g hinv (hsub g (List.mem_cons_self _ _)))

/-- The cluster map of `findEqualSpacing` satisfies the invariant. -/
theorem spacingGroupsOf_inv (isX : Bool) (group : List Element) :
    ClusterInvP (gapSpacings isX group) (spacingGroupsOf isX group) :=
  foldl_addToGroups_inv _ _ [] (fun _ h => h) (fun c hc => absurd hc (List.not_mem_nil c))

/-- Characterization of the collected gaps: consecutive indices, positive
spacing, and the spacing is the rounded leading-edge-minus-trailing-edge
difference of the two adjacent group members. -/
theorem mem_gapSpacings (isX : Bool) (group : List Element) (g : GapPos)
    (h : g ∈ gapSpacings isX group) :
    g.stop = g.start + 1 ∧ 0 < g.spacing ∧
    g.spacing = toFixed
      (getStart isX (getElementBoundPoints (group.getD g.stop defaultElement)) -
        getEnd isX (getElementBoundPoints (group.getD g.start defaultElement))) 0 := by
  unfold gapSpacings at h
  rw [List.mem_filterMap] at h
  obtain ⟨i, hi, hfi⟩ := h
  split_ifs at hfi with hpos
  rw [Option.some.injEq] at hfi
  subst hfi
  exact ⟨rfl, hpos, rfl⟩

/-- Claim C10: every equal-spacing result emitted from a cluster carries the
cluster's representative spacing — the spacing of the first gap that opened
the cluster — as its `equalSpacing` and as its box extent along the primary
axis, and that representative differs from the gap value computed for the
result's own adjacent pair by at most the 1-unit clustering tolerance. -/
theorem findEqualSpacing_representative (isX : Bool) (target : Element)
    (snapElements : List Element) (r : EqualSpacingResult)
    (h : r ∈ findEqualSpacing isX target snapElements) :
    ∃ c ∈ spacingGroupsOf isX (spacingGroup isX target snapElements),
      ∃ pos ∈ c.2,
        r = mkSpacingResult isX (spacingGroup isX target snapElements) c.1 pos ∧
        r.equalSpacing = c.1 ∧
        (isX = true → r.box.width = c.1) ∧
        (isX = false → r.box.height = c.1) ∧
        (∃ g0, c.2.head? = some g0 ∧ g0.spacing = c.1) ∧
        |pos.spacing - c.1| ≤ spacingTolerance ∧
        pos.spacing = toFixed
          (getStart isX (getElementBoundPoints
              ((spacingGroup isX target snapElements).getD pos.stop defaultElement)) -
            getEnd isX (getElementBoundPoints
              ((spacingGroup isX target snapElements).getD pos.start defaultElement))) 0 ∧
        r.prevElement = (spacingGroup isX target snapElements).getD pos.start defaultElement ∧
        r.nextElement = (spacingGroup isX target snapElements).getD pos.stop defaultElement := by
  simp only [findEqualSpacing] at h
  split_ifs at h with hmem
  · rw [mem_foldl_processCluster] at h
    rcases h with h | ⟨c, hc, hr⟩
    · exact absurd h (List.not_mem_nil r)
    · have hinv := spacingGroupsOf_inv isX (spacingGroup isX target snapElements) c hc
      unfold processCluster at hr
      by_cases h1 : c.2.length < 2
      · rw [if_pos h1] at hr
        exact absurd hr (List.not_mem_nil r)
      · rw [if_neg h1] at hr
        by_cases h2 : (c.2.any fun pos =>
            decide (pos.start = (spacingGroup isX target snapElements).indexOf target ∨
              pos.stop = (spacingGroup isX target snapElements).indexOf target)) = true
        · rw [if_neg (not_not_intro h2)] at hr
          by_cases h3 : checkSpacingPattern c.2
              ((spacingGroup isX target snapElements).indexOf target) = true
          · rw [if_neg (not_not_intro h3)] at hr
            rw [List.mem_map] at hr
            obtain ⟨pos, hpos, hmk⟩ := hr
            obtain ⟨hgap, htol⟩ := hinv.2 pos hpos
            obtain ⟨_, _, hspacing⟩ := mem_gapSpacings isX _ pos hgap
            refine ⟨c, hc, pos, hpos, hmk.symm, ?_, ?_, ?_, hinv.1, htol, hspacing, ?_, ?_⟩
            · rw [← hmk]
              rfl
            · intro hx
              subst hx
              rw [← hmk]
              simp [mkSpacingResult]
            · intro hx
              subst hx
              rw [← hmk]
              simp [mkSpacingResult]
            · rw [← hmk]
              rfl
            · rw [← hmk]
              rfl
          · rw [if_pos h3] at hr
            exact absurd hr (List.not_mem_nil r)
        · rw [if_pos h2] at hr
          exact absurd hr (List.not_mem_nil r)
  · exact absurd h (List.not_mem_nil r)

/-- Witness for `findEqualSpacing_representative`: the second result of the
three-in-a-row scenario carries the cluster representative 10. -/
theorem findEqualSpacing_representative_witness :
    ∃ c ∈ spacingGroupsOf true
        (spacingGroup true ⟨0, [⟨0, 0⟩, ⟨10, 10⟩]⟩
          [⟨1, [⟨20, 0⟩, ⟨30, 10⟩]⟩, ⟨2, [⟨40, 0⟩, ⟨50, 10⟩]⟩]),
      ∃ pos ∈ c.2,
        (⟨.x, ⟨1, [⟨20, 0⟩, ⟨30, 10⟩]⟩, ⟨2, [⟨40, 0⟩, ⟨50, 10⟩]⟩, 10, 10, 10,
            ⟨30, 0, 10, 10⟩, ⟨35, 5⟩⟩ : EqualSpacingResult)
          = mkSpacingResult true
              (spacingGroup true ⟨0, [⟨0, 0⟩, ⟨10, 10⟩]⟩
                [⟨1, [⟨20, 0⟩, ⟨30, 10⟩]⟩, ⟨2, [⟨40, 0⟩, ⟨50, 10⟩]⟩]) c.1 pos ∧
        (⟨.x, ⟨1, [⟨20, 0⟩, ⟨30, 10⟩]⟩, ⟨2, [⟨40, 0⟩, ⟨50, 10⟩]⟩, 10, 10, 10,
            ⟨30, 0, 10, 10⟩, ⟨35, 5⟩⟩ : EqualSpacingResult).equalSpacing = c.1 ∧
        (true = true →
          (⟨.x, ⟨1, [⟨20, 0⟩, ⟨30, 10⟩]⟩, ⟨2, [⟨40, 0⟩, ⟨50, 10⟩]⟩, 10, 10, 10,
              ⟨30, 0, 10, 10⟩, ⟨35, 5⟩⟩ : EqualSpacingResult).box.width = c.1) ∧
        (true = false →
          (⟨.x, ⟨1, [⟨20, 0⟩, ⟨30, 10⟩]⟩, ⟨2, [⟨40, 0⟩, ⟨50, 10⟩]⟩, 10, 10, 10,
              ⟨30, 0, 10, 10⟩, ⟨35, 5⟩⟩ : EqualSpacingResult).box.height = c.1) ∧
        (∃ g0, c.2.head? = some g0 ∧ g0.spacing = c.1) ∧
        |pos.spacing - c.1| ≤ spacingTolerance ∧
        pos.spacing = toFixed
          (getStart true (getElementBoundPoints
              ((spacingGroup true ⟨0, [⟨0, 0⟩, ⟨10, 10⟩]⟩
                  [⟨1, [⟨20, 0⟩, ⟨30, 10⟩]⟩, ⟨2, [⟨40, 0⟩, ⟨50, 10⟩]⟩]).getD pos.stop
                defaultElement)) -
            getEnd true (getElementBoundPoints
              ((spacingGroup true ⟨0, [⟨0, 0⟩, ⟨10, 10⟩]⟩
                  [⟨1, [⟨20, 0⟩, ⟨30, 10⟩]⟩, ⟨2, [⟨40, 0⟩, ⟨50, 10⟩]⟩]).getD pos.start
                defaultElement))) 0 ∧
        (⟨.x, ⟨1, [⟨20, 0⟩, ⟨30, 10⟩]⟩, ⟨2, [⟨40, 0⟩, ⟨50, 10⟩]⟩, 10, 10, 10,
            ⟨30, 0, 10, 10⟩, ⟨35, 5⟩⟩ : EqualSpacingResult).prevElement
          = (spacingGroup true ⟨0, [⟨0, 0⟩, ⟨10, 10⟩]⟩
              [⟨1, [⟨20, 0⟩, ⟨30, 10⟩]⟩, ⟨2, [⟨40, 0⟩, ⟨50, 10⟩]⟩]).getD pos.start
              defaultElement ∧
        (⟨.x, ⟨1, [⟨20, 0⟩, ⟨30, 10⟩]⟩, ⟨2, [⟨40, 0⟩, ⟨50, 10⟩]⟩, 10, 10, 10,
            ⟨30, 0, 10, 10⟩, ⟨35, 5⟩⟩ : EqualSpacingResult).nextElement
          = (spacingGroup true ⟨0, [⟨0, 0⟩, ⟨10, 10⟩]⟩
              [⟨1, [⟨20, 0⟩, ⟨30, 10⟩]⟩, ⟨2, [⟨40, 0⟩, ⟨50, 10⟩]⟩]).getD pos.stop
              defaultElement :=
  findEqualSpacing_representative true ⟨0, [⟨0, 0⟩, ⟨10, 10⟩]⟩
    [⟨1, [⟨20, 0⟩, ⟨30, 10⟩]⟩, ⟨2, [⟨40, 0⟩, ⟨50, 10⟩]⟩]
    ⟨.x, ⟨1, [⟨20, 0⟩, ⟨30, 10⟩]⟩, ⟨2, [⟨40, 0⟩, ⟨50, 10⟩]⟩, 10, 10, 10,
      ⟨30, 0, 10, 10⟩, ⟨35, 5⟩⟩
    (by norm_num [findEqualSpacing, spacingGroup, spacingGroupsOf, gapSpacings, addToGroups,
      processCluster, mkSpacingResult, checkSpacingPattern, overlapsTarget, groupLe, getStart,
      getEnd, getElementBoundPoints, listMin, listMax, toFixed, jsRoundQ, jsRound,
      List.insertionSort, List.orderedInsert, defaultElement, spacingTolerance, List.indexOf,
      List.findIdx, List.findIdx.go, List.range, List.range.loop, List.filterMap_cons,
      List.getD, min_def, max_def])

/-- Primary-side invariant of the nearest-point loop over the processed
prefix `done`: no nearest point recorded means no processed point lies
strictly beyond the primary midpoint, and a recorded nearest point is a
processed point strictly beyond it at the recorded minimal distance. -/
def PrimInv (isX : Bool) (pc : ℚ) (done : List SnapPoint) (st : NearestState) : Prop :=
  (st.nearestPrimary = none →
    st.minPrimaryDist = none ∧ ∀ q ∈ done, ¬((if isX then q.y else q.x) < pc)) ∧
  ∀ p, st.nearestPrimary = some p → p ∈ done ∧ (if isX then p.y else p.x) < pc ∧
    st.minPrimaryDist = some |(if isX then p.y else p.x) - pc| ∧
    ∀ q ∈ done, (if isX then q.y else q.x) < pc →
      |(if isX then p.y else p.x) - pc| ≤ |(if isX then q.y else q.x) - pc|

/-- Secondary-side invariant of the nearest-point loop. -/
def SecInv (isX : Bool) (sc : ℚ) (done : List SnapPoint) (st : NearestState) : Prop :=
  (st.nearestSecondary = none →
    st.minSecondaryDist = none ∧ ∀ q ∈ done, ¬((if isX then q.y else q.x) > sc)) ∧
  ∀ p, st.nearestSecondary = some p → p ∈ done ∧ (if isX then p.y else p.x) > sc ∧
    st.minSecondaryDist = some |(if isX then p.y else p.x) - sc| ∧
    ∀ q ∈ done, (if isX then q.y else q.x) > sc →
      |(if isX then p.y else p.x) - sc| ≤ |(if isX then q.y else q.x) - sc|

/-- The primary invariant only depends on the primary fields. -/
theorem PrimInv_congr (isX : Bool) (pc : ℚ) (done : List SnapPoint)
    (st st' : NearestState) (h1 : st'.nearestPrimary = st.nearestPrimary)
    (h2 : st'.minPrimaryDist = st.minPrimaryDist) (h : PrimInv isX pc done st) :
    PrimInv isX pc done st' := by
  constructor
  · intro hn
    rw [h1] at hn
    obtain ⟨hm, hq⟩ := h.1 hn
    rw [h2]
    exact ⟨hm, hq⟩
  · intro p hp
    rw [h1] at hp
    obtain ⟨hmem, hb, hmd, hmin⟩ := h.2 p hp
    rw [h2]
    exact ⟨hmem, hb, hmd, hmin⟩

/-- The secondary invariant only depends on the secondary fields. -/
theorem SecInv_congr (isX : Bool) (sc : ℚ) (done : List SnapPoint)
    (st st' : NearestState) (h1 : st'.nearestSecondary = st.nearestSecondary)
    (h2 : st'.minSecondaryDist = st.minSecondaryDist) (h : SecInv isX sc done st) :
    SecInv isX sc done st' := by
  constructor
  · intro hn
    rw [h1] at hn
    obtain ⟨hm, hq⟩ := h.1 hn
    rw [h2]
    exact ⟨hm, hq⟩
  · intro p hp
    rw [h1] at hp
    obtain ⟨hmem, hb, hmd, hmin⟩ := h.2 p hp
    rw [h2]
    exact ⟨hmem, hb, hmd, hmin⟩

/-- The primary update does not touch the secondary fields. -/
theorem primaryUpdate_sec_fields (isX : Bool) (pc : ℚ) (st : NearestState) (p : SnapPoint) :
    (primaryUpdate isX pc st p).nearestSecondary = st.nearestSecondary ∧
    (primaryUpdate isX pc st p).minSecondaryDist = st.minSecondaryDist := by
  unfold primaryUpdate
  split_ifs <;> exact ⟨rfl, rfl⟩

/-- The secondary update does not touch the primary fields. -/
theorem secondaryUpdate_prim_fields (isX : Bool) (sc : ℚ) (st : NearestState) (p : SnapPoint) :
    (secondaryUpdate isX sc st p).nearestPrimary = st.nearestPrimary ∧
    (secondaryUpdate isX sc st p).minPrimaryDist = st.minPrimaryDist := by
  unfold secondaryUpdate
  split_ifs <;> exact ⟨rfl, rfl⟩

/-- The primary update preserves and extends the primary invariant. -/
theorem primaryUpdate_inv (isX : Bool) (pc : ℚ) (done : List SnapPoint)
    (st : NearestState) (p : SnapPoint) (h : PrimInv isX pc done st) :
    PrimInv isX pc (done ++ [p]) (primaryUpdate isX pc st p) := by
  unfold primaryUpdate
  by_cases hc : (if isX then p.y else p.x) < pc ∧
      ltInf |(if isX then p.y else p.x) - pc| st.minPrimaryDist
  · rw [if_pos hc]
    constructor
    · intro hn
      simp at hn
    · intro p' hp'
      simp only [Option.some.injEq] at hp'
      subst hp'
      refine ⟨by simp, hc.1, rfl, ?_⟩
      intro q hq hqb
      rcases List.mem_append.mp hq with hq' | hq'
      · cases hnp : st.nearestPrimary with
        | none => exact absurd hqb ((h.1 hnp).2 q hq')
        | some p0 =>
          obtain ⟨_, _, hmd, hmin⟩ := h.2 p0 hnp
          have hlt := hc.2
          rw [hmd] at hlt
          dsimp [ltInf] at hlt
          exact le_trans hlt.le (hmin q hq' hqb)
      · simp only [List.mem_singleton] at hq'
        subst hq'
        exact le_refl _
  · rw [if_neg hc]
    constructor
    · intro hn
      obtain ⟨hm, hq⟩ := h.1 hn
      refine ⟨hm, ?_⟩
      intro q hq'
      rcases List.mem_append.mp hq' with h' | h'
      · exact hq q h'
      · simp only [List.mem_singleton] at h'
        subst h'
        intro hb
        apply hc
        refine ⟨hb, ?_⟩
        rw [hm]
        trivial
    · intro p' hp'
      obtain ⟨hmem, hb, hmd, hmin⟩ := h.2 p' hp'
      refine ⟨List.mem_append_left _ hmem, hb, hmd, ?_⟩
      intro q hq' hqb
      rcases List.mem_append.mp hq' with h' | h'
      · exact hmin q h' hqb
      · simp only [List.mem_singleton] at h'
        subst h'
        have hnl : ¬ltInf |(if isX then q.y else q.x) - pc| st.minPrimaryDist :=
          fun hl => hc ⟨hqb, hl⟩
        rw [hmd] at hnl
        dsimp [ltInf] at hnl
        exact not_lt.mp hnl

/-- The secondary update preserves and extends the secondary invariant. -/
theorem secondaryUpdate_inv (isX : Bool) (sc : ℚ) (done : List SnapPoint)
    (st : NearestState) (p : SnapPoint) (h : SecInv isX sc done st) :
    SecInv isX sc (done ++ [p]) (secondaryUpdate isX sc st p) := by
  unfold secondaryUpdate
  by_cases hc : (if isX then p.y else p.x) > sc ∧
      ltInf |(if isX then p.y else p.x) - sc| st.minSecondaryDist
  · rw [if_pos hc]
    constructor
    · intro hn
      simp at hn
    · intro p' hp'
      simp only [Option.some.injEq] at hp'
      subst hp'
      refine ⟨by simp, hc.1, rfl, ?_⟩
      intro q hq hqb
      rcases List.mem_append.mp hq with hq' | hq'
      · cases hnp : st.nearestSecondary with
        | none => exact absurd hqb ((h.1 hnp).2 q hq')
        | some p0 =>
          obtain ⟨_, _, hmd, hmin⟩ := h.2 p0 hnp
          have hlt := hc.2
          rw [hmd] at hlt
          dsimp [ltInf] at hlt
          exact le_trans hlt.le (hmin q hq' hqb)
      · simp only [List.mem_singleton] at hq'
        subst hq'
        exact le_refl _
  · rw [if_neg hc]
    constructor
    · intro hn
      obtain ⟨hm, hq⟩ := h.1 hn
      refine ⟨hm, ?_⟩
      intro q hq'
      rcases List.mem_append.mp hq' with h' | h'
      · exact hq q h'
      · simp only [List.mem_singleton] at h'
        subst h'
        intro hb
        apply hc
        refine ⟨hb, ?_⟩
        rw [hm]
        trivial
    · intro p' hp'
      obtain ⟨hmem, hb, hmd, hmin⟩ := h.2 p' hp'
      refine ⟨List.mem_append_left _ hmem, hb, hmd, ?_⟩
      intro q hq' hqb
      rcases List.mem_append.mp hq' with h' | h'
      · exact hmin q h' hqb
      · simp only [List.mem_singleton] at h'
        subst h'
        have hnl : ¬ltInf |(if isX then q.y else q.x) - sc| st.minSecondaryDist :=
          fun hl => hc ⟨hqb, hl⟩
        rw [hmd] at hnl
        dsimp [ltInf] at hnl
        exact not_lt.mp hnl

/-- Folding the nearest-point step preserves both side invariants. -/
theorem foldl_nearest_inv (isX : Bool) (pc sc : ℚ) :
    ∀ (l done : List SnapPoint) (st : NearestState),
      PrimInv isX pc done st → SecInv isX sc done st →
      PrimInv isX pc (done ++ l) (l.foldl (nearestStep isX pc sc) st) ∧
      SecInv isX sc (done ++ l) (l.foldl (nearestStep isX pc sc) st) := by
  intro l
  induction l with
  | nil =>
    intro done st h1 h2
    simpa using ⟨h1, h2⟩
  | cons p l ih =>
    intro done st h1 h2
    rw [List.foldl_cons]
    have hstep1 : PrimInv isX pc (done ++ [p]) (nearestStep isX pc sc st p) := by
      apply PrimInv_congr isX pc _ (primaryUpdate isX pc st p) _
        (secondaryUpdate_prim_fields isX sc _ p).1
        (secondaryUpdate_prim_fields isX sc _ p).2
      exact primaryUpdate_inv isX pc done st p h1
    have hstep2 : SecInv isX sc (done ++ [p]) (nearestStep isX pc sc st p) := by
      apply secondaryUpdate_inv isX sc done _ p
      exact SecInv_congr isX sc done st _
        (primaryUpdate_sec_fields isX pc st p).1
        (primaryUpdate_sec_fields isX pc st p).2 h2
    have hrec := ih (done ++ [p]) (nearestStep isX pc sc st p) hstep1 hstep2
    simpa [List.append_assoc] using hrec

/-- The final state of the nearest-point search satisfies both invariants
over the full mid-filtered point list. -/
theorem nearestStateOf_spec (crs : List LineCollisionResult) (mids : EdgeMidpoints)
    (axis : Axis) :
    PrimInv (axisIsX axis) (primaryCoordOf mids axis) (allLabelPoints axis crs)
      (nearestStateOf crs mids axis) ∧
    SecInv (axisIsX axis) (secondaryCoordOf mids axis) (allLabelPoints axis crs)
      (nearestStateOf crs mids axis) := by
  unfold nearestStateOf
  have h := foldl_nearest_inv (axisIsX axis) (primaryCoordOf mids axis)
    (secondaryCoordOf mids axis) (allLabelPoints axis crs) [] ⟨none, none, none, none⟩
    ⟨fun _ => ⟨rfl, by simp⟩, fun p hp => by simp at hp⟩
    ⟨fun _ => ⟨rfl, by simp⟩, fun p hp => by simp at hp⟩
  simpa using h

/-- Membership in the label-point accumulation fold. -/
theorem mem_allLabelPoints_iff (axis : Axis) :
    ∀ (crs : List LineCollisionResult) (acc : List SnapPoint) (q : SnapPoint),
      q ∈ crs.foldl (fun acc c => acc ++ filterMidPoints axis c.collisionPoints) acc ↔
        q ∈ acc ∨ ∃ c ∈ crs, q ∈ filterMidPoints axis c.collisionPoints := by
  intro crs
  induction crs with
  | nil => simp
  | cons c crs ih =>
    intro acc q
    rw [List.foldl_cons, ih]
    simp only [List.mem_append, List.mem_cons]
    constructor
    · rintro ((h | h) | ⟨c', hc', hq⟩)
      · exact Or.inl h
      · exact Or.inr ⟨c, Or.inl rfl, h⟩
      · exact Or.inr ⟨c', Or.inr hc', hq⟩
    · rintro (h | ⟨c', hc' | hc', hq⟩)
      · exact Or.inl (Or.inl h)
      · subst hc'
        exact Or.inl (Or.inr hq)
      · exact Or.inr ⟨c', hc', hq⟩

/-- Points surviving the mid-filter never carry the excluded midpoint tags. -/
theorem allLabelPoints_type (axis : Axis) (crs : List LineCollisionResult) (q : SnapPoint)
    (h : q ∈ allLabelPoints axis crs) :
    (axis = .x → q.type ≠ .ml ∧ q.type ≠ .mr) ∧
    (axis = .y → q.type ≠ .mt ∧ q.type ≠ .mb) := by
  unfold allLabelPoints at h
  have h' := (mem_allLabelPoints_iff axis crs [] q).mp h
  rcases h' with h' | ⟨c, _, hq⟩
  · simp at h'
  · cases axis with
    | x =>
      constructor
      · intro _
        unfold filterMidPoints at hq
        rw [List.mem_filter] at hq
        have h2 := hq.2
        simp only [decide_not, Bool.not_eq_eq_eq_not, Bool.not_true, decide_eq_false_iff_not,
          not_or, decide_eq_true_eq] at h2
        exact h2
      · intro hay
        simp at hay
    | y =>
      constructor
      · intro hax
        simp at hax
      · intro _
        unfold filterMidPoints at hq
        rw [List.mem_filter] at hq
        have h2 := hq.2
        simp only [decide_not, Bool.not_eq_eq_eq_not, Bool.not_true, decide_eq_false_iff_not,
          not_or, decide_eq_true_eq] at h2
        exact h2

/-- An emitted label is one of the two candidate labels. -/
theorem mem_pickLabels (pl sl : Option DistanceLabel) (lab : DistanceLabel)
    (h : lab ∈ pickLabels pl sl) : pl = some lab ∨ sl = some lab := by
  cases pl with
  | none =>
    cases sl with
    | none => simp [pickLabels] at h
    | some sl' =>
      simp only [pickLabels, List.mem_singleton] at h
      subst h
      exact Or.inr rfl
  | some pl' =>
    cases sl with
    | none =>
      simp only [pickLabels, List.mem_singleton] at h
      subst h
      exact Or.inl rfl
    | some sl' =>
      unfold pickLabels at h
      dsimp only at h
      split_ifs at h with h1 h2
      · rcases List.mem_cons.mp h with h' | h'
        · subst h'
          exact Or.inl rfl
        · simp only [List.mem_singleton] at h'
          subst h'
          exact Or.inr rfl
      · simp only [List.mem_singleton] at h
        subst h
        exact Or.inl rfl
      · simp only [List.mem_singleton] at h
        subst h
        exact Or.inr rfl

/-- The constructed label stores the snap point it was built from. -/
theorem createLabel_snapPoint (p : SnapPoint) (dir : Direction) (mids : EdgeMidpoints)
    (scale : ℚ) : (createDistanceLabelWithLineByEdge p dir mids scale).snapPoint = p := rfl

/-- The constructed label stores the direction it was built for. -/
theorem createLabel_direction (p : SnapPoint) (dir : Direction) (mids : EdgeMidpoints)
    (scale : ℚ) : (createDistanceLabelWithLineByEdge p dir mids scale).direction = dir := rfl

/-- The two label directions of one axis differ. -/
theorem primaryDir_ne_secondaryDir (axis : Axis) :
    primaryDirOf axis ≠ secondaryDirOf axis := by
  cases axis <;> decide

/-- Claim C6: every emitted distance label is anchored at a mid-filtered
collision point strictly beyond its side's edge midpoint and nearest among
such points on that side; when both side candidates exist, both labels are
emitted exactly when their rounded distances coincide, and otherwise only
the strictly closer one. -/
theorem processAxisDistanceLabels_spec (crs : List LineCollisionResult)
    (mids : EdgeMidpoints) (axis : Axis) (scale : ℚ) :
    (∀ lab ∈ processAxisDistanceLabels crs mids axis scale,
      lab.snapPoint ∈ allLabelPoints axis crs ∧
      (axis = .x → lab.snapPoint.type ≠ .ml ∧ lab.snapPoint.type ≠ .mr) ∧
      (axis = .y → lab.snapPoint.type ≠ .mt ∧ lab.snapPoint.type ≠ .mb) ∧
      (lab.direction = primaryDirOf axis ∨ lab.direction = secondaryDirOf axis) ∧
      (lab.direction = primaryDirOf axis →
        labelCoord axis lab.snapPoint < primaryCoordOf mids axis ∧
        ∀ q ∈ allLabelPoints axis crs, labelCoord axis q < primaryCoordOf mids axis →
          |labelCoord axis lab.snapPoint - primaryCoordOf mids axis| ≤
            |labelCoord axis q - primaryCoordOf mids axis|) ∧
      (lab.direction = secondaryDirOf axis →
        secondaryCoordOf mids axis < labelCoord axis lab.snapPoint ∧
        ∀ q ∈ allLabelPoints axis crs, secondaryCoordOf mids axis < labelCoord axis q →
          |labelCoord axis lab.snapPoint - secondaryCoordOf mids axis| ≤
            |labelCoord axis q - secondaryCoordOf mids axis|)) ∧
    (∀ pl sl, primaryLabelOf crs mids axis scale = some pl →
      secondaryLabelOf crs mids axis scale = some sl → crs ≠ [] →
      (pl.distance = sl.distance →
        processAxisDistanceLabels crs mids axis scale = [pl, sl]) ∧
      (pl.distance < sl.distance →
        processAxisDistanceLabels crs mids axis scale = [pl]) ∧
      (sl.distance < pl.distance →
        processAxisDistanceLabels crs mids axis scale = [sl])) := by
  obtain ⟨hprim, hsec⟩ := nearestStateOf_spec crs mids axis
  constructor
  · intro lab hlab
    unfold processAxisDistanceLabels at hlab
    by_cases hcrs : crs.length = 0
    · rw [if_pos hcrs] at hlab
      exact absurd hlab (List.not_mem_nil lab)
    · rw [if_neg hcrs] at hlab
      rcases mem_pickLabels _ _ _ hlab with hpl | hsl
      · unfold primaryLabelOf at hpl
        rw [Option.map_eq_some'] at hpl
        obtain ⟨p, hnp, hlab'⟩ := hpl
        obtain ⟨hmem, hb, _, hmin⟩ := hprim.2 p hnp
        subst hlab'
        rw [createLabel_snapPoint, createLabel_direction]
        refine ⟨hmem, (allLabelPoints_type axis crs p hmem).1,
          (allLabelPoints_type axis crs p hmem).2, Or.inl rfl, ?_, ?_⟩
        · intro _
          simp only [labelCoord]
          exact ⟨hb, fun q hq hqb => hmin q hq hqb⟩
        · intro hdir
          exact absurd hdir (primaryDir_ne_secondaryDir axis)
      · unfold secondaryLabelOf at hsl
        rw [Option.map_eq_some'] at hsl
        obtain ⟨p, hns, hlab'⟩ := hsl
        obtain ⟨hmem, hb, _, hmin⟩ := hsec.2 p hns
        subst hlab'
        rw [createLabel_snapPoint, createLabel_direction]
        refine ⟨hmem, (allLabelPoints_type axis crs p hmem).1,
          (allLabelPoints_type axis crs p hmem).2, Or.inr rfl, ?_, ?_⟩
        · intro hdir
          exact absurd hdir.symm (primaryDir_ne_secondaryDir axis)
        · intro _
          simp only [labelCoord]
          exact ⟨hb, fun q hq hqb => hmin q hq hqb⟩
  · intro pl sl hpl hsl hne
    have hout : processAxisDistanceLabels crs mids axis scale
        = pickLabels (some pl) (some sl) := by
      unfold processAxisDistanceLabels
      rw [if_neg (fun h0 => hne (List.length_eq_zero.mp h0)), hpl, hsl]
    refine ⟨?_, ?_, ?_⟩
    · intro heq
      rw [hout]
      unfold pickLabels
      dsimp only
      rw [if_pos heq]
    · intro hlt
      rw [hout]
      unfold pickLabels
      dsimp only
      rw [if_neg (ne_of_lt hlt), if_pos hlt]
    · intro hgt
      rw [hout]
      unfold pickLabels
      dsimp only
      rw [if_neg (ne_of_gt hgt), if_neg (not_lt.mpr (le_of_lt hgt))]

/-- Witness for `processAxisDistanceLabels_spec`: a moving shape equidistant
(50 units) from qualifying points on the left and right emits both labels. -/
theorem processAxisDistanceLabels_spec_witness :
    ((50 : ℚ) = 50 →
      processAxisDistanceLabels
          [⟨⟨.horizontal, 5, []⟩, [⟨-50, 5, .tl, 9⟩, ⟨60, 5, .tr, 9⟩], [], 0, 0⟩]
          ⟨⟨0, 5⟩, ⟨10, 5⟩, ⟨5, 0⟩, ⟨5, 10⟩⟩ .y 1
        = [⟨⟨-50, 5, .tl, 9⟩, ⟨-25, 25⟩, ⟨0, 5⟩, ⟨-50, 5⟩, ⟨-25, 5⟩, 50, .left, 50⟩,
           ⟨⟨60, 5, .tr, 9⟩, ⟨35, 25⟩, ⟨10, 5⟩, ⟨60, 5⟩, ⟨35, 5⟩, 50, .right, 50⟩]) ∧
    ((50 : ℚ) < 50 →
      processAxisDistanceLabels
          [⟨⟨.horizontal, 5, []⟩, [⟨-50, 5, .tl, 9⟩, ⟨60, 5, .tr, 9⟩], [], 0, 0⟩]
          ⟨⟨0, 5⟩, ⟨10, 5⟩, ⟨5, 0⟩, ⟨5, 10⟩⟩ .y 1
        = [⟨⟨-50, 5, .tl, 9⟩, ⟨-25, 25⟩, ⟨0, 5⟩, ⟨-50, 5⟩, ⟨-25, 5⟩, 50, .left, 50⟩]) ∧
    ((50 : ℚ) < 50 →
      processAxisDistanceLabels
          [⟨⟨.horizontal, 5, []⟩, [⟨-50, 5, .tl, 9⟩, ⟨60, 5, .tr, 9⟩], [], 0, 0⟩]
          ⟨⟨0, 5⟩, ⟨10, 5⟩, ⟨5, 0⟩, ⟨5, 10⟩⟩ .y 1
        = [⟨⟨60, 5, .tr, 9⟩, ⟨35, 25⟩, ⟨10, 5⟩, ⟨60, 5⟩, ⟨35, 5⟩, 50, .right, 50⟩]) := by
  have h := (processAxisDistanceLabels_spec
    [⟨⟨.horizontal, 5, []⟩, [⟨-50, 5, .tl, 9⟩, ⟨60, 5, .tr, 9⟩], [], 0, 0⟩]
    ⟨⟨0, 5⟩, ⟨10, 5⟩, ⟨5, 0⟩, ⟨5, 10⟩⟩ .y 1).2
    ⟨⟨-50, 5, .tl, 9⟩, ⟨-25, 25⟩, ⟨0, 5⟩, ⟨-50, 5⟩, ⟨-25, 5⟩, 50, .left, 50⟩
    ⟨⟨60, 5, .tr, 9⟩, ⟨35, 25⟩, ⟨10, 5⟩, ⟨60, 5⟩, ⟨35, 5⟩, 50, .right, 50⟩
    (by norm_num +decide [primaryLabelOf, nearestStateOf, nearestStep, primaryUpdate,
      secondaryUpdate, ltInf, allLabelPoints, filterMidPoints, axisIsX, primaryCoordOf,
      secondaryCoordOf, primaryMidOf, secondaryMidOf, primaryDirOf, secondaryDirOf,
      createDistanceLabelWithLineByEdge, toFixed, jsRoundQ, jsRound,
      List.filter_cons, List.foldl_cons, List.foldl_nil])
    (by norm_num +decide [secondaryLabelOf, nearestStateOf, nearestStep, primaryUpdate,
      secondaryUpdate, ltInf, allLabelPoints, filterMidPoints, axisIsX, primaryCoordOf,
      secondaryCoordOf, primaryMidOf, secondaryMidOf, primaryDirOf, secondaryDirOf,
      createDistanceLabelWithLineByEdge, toFixed, jsRoundQ, jsRound,
      List.filter_cons, List.foldl_cons, List.foldl_nil])
    (by simp)
  exact h

end EasySnap
